import Mathlib

/-!
Shallow embedding of the effective-index-method (EIM) waveguide solver.

The numeric model follows the C++ sources:
* doubles are modelled as real numbers; a value that the C++ code would
  turn into an IEEE NaN (square root of a negative number, division by
  zero) is modelled as `none` in `Option ℝ`, and every ordered comparison
  involving `none` is false, exactly as IEEE comparisons with NaN are;
* `opt.bisection` (from inc/libopt.h) is transcribed statement by
  statement, with the `while` loop expressed as fuel recursion where the
  fuel equals the remaining iteration budget `max_iter - iter`;
* the slab/slot characteristic equations, `solve_slab`,
  `solve_slot_slab` (strip.h, slot.h), the per-sample body of `mode_1D`
  and the strip `Waveguide` composition (src/eim.cc) are transcribed
  directly, in the sequential (PAR == 0) configuration, which is the
  default build.
-/

open Real

namespace opt

/-- Status codes of the bisection solver (libopt.h, anonymous enum). -/
inductive StCode where
  | CONVERGED
  | DIVERGED
  | INVALID_RANGE
deriving DecidableEq

/-- Run statistics of a bisection call (libopt.h, struct Status). -/
structure Status (α : Type) where
  status : StCode
  iterations : ℕ
  residual : Option α
deriving DecidableEq

/-- Return value of `bisection`: the root together with the status the C++
function writes through its reference parameter. -/
structure BisectRes (α : Type) where
  root : α
  s : Status α
deriving DecidableEq

/-- Strict order on optional values with IEEE NaN semantics: any comparison
with `none` is false. -/
def olt {α : Type} [LT α] : Option α → Option α → Prop
  | some x, some y => x < y
  | _, _ => False

instance {α : Type} [LinearOrder α] : ∀ x y : Option α, Decidable (olt x y)
  | some x, some y => inferInstanceAs (Decidable (x < y))
  | none, none => isFalse (fun h => h)
  | none, some _ => isFalse (fun h => h)
  | some _, none => isFalse (fun h => h)

/-- NaN-propagating product of optional values. -/
def omul {α : Type} [Mul α] : Option α → Option α → Option α
  | some x, some y => some (x * y)
  | _, _ => none

/-- NaN-propagating absolute value. -/
def oabs {α : Type} [Lattice α] [AddGroup α] : Option α → Option α
  | some x => some |x|
  | none => none

/-- `std::min` on optional values: `(b < a) ? b : a`, comparisons with
`none` being false. -/
def omin {α : Type} [LinearOrder α] (x y : Option α) : Option α :=
  if olt y x then y else x

/-- Outcome of the `while` loop of `bisection`: either the early
`CONVERGED` return from the loop body, or fall-through with the final
state of the mutated locals. -/
inductive LoopOut (α : Type) where
  | early (r : BisectRes α)
  | done (a b : α) (fa fb : Option α) (mid : α) (fmid : Option α) (iter : ℕ)

/-- The `while` loop of `opt::bisection` (libopt.h lines 87-111).  The
carried `mid`, `fmid` are the values tested by the loop condition (stale:
they come from the previous body, or from the pre-loop evaluation); the
body recomputes both before using them.  `fuel` equals
`max_iter - iter`, so `0 < fuel` is the `iter < max_iter` conjunct. -/
def bisectLoop {α : Type} [LinearOrderedField α] (f : α → Option α) (tol : α) :
    α → α → Option α → Option α → α → Option α → ℕ → ℕ → LoopOut α
  | a, b, fa, fb, mid, fmid, iter, 0 => .done a b fa fb mid fmid iter
  | a, b, fa, fb, mid, fmid, iter, fuel + 1 =>
    if tol < mid ∧ olt (some tol) (oabs fmid) then
      let mid2 := (a + b) / 2
      let fmid2 := f mid2
      if olt (oabs fmid2) (some tol) then
        .early ⟨mid2, ⟨.CONVERGED, iter, oabs fmid2⟩⟩
      else if olt (omul fa fmid2) (some 0) then
        bisectLoop f tol a mid2 fa fmid2 mid2 fmid2 (iter + 1) fuel
      else
        bisectLoop f tol mid2 b fmid2 fb mid2 fmid2 (iter + 1) fuel
    else .done a b fa fb mid fmid iter

/-- The code after the `while` loop of `opt::bisection` (libopt.h lines
113-133): recompute the midpoint and its residual, set the status from the
remaining half-width, then force `DIVERGED` if the midpoint is within
tolerance of either current bracket endpoint. -/
def bisectFinish {α : Type} [LinearOrderedField α] (f : α → Option α) (tol : α)
    (a b : α) (iter : ℕ) : BisectRes α :=
  let mid := (a + b) / 2
  let fmid := f mid
  let st0 : StCode := if (b - a) / 2 ≤ tol then .CONVERGED else .DIVERGED
  let st : StCode := if |mid - b| < tol ∨ |mid - a| < tol then .DIVERGED else st0
  ⟨mid, ⟨st, iter, oabs fmid⟩⟩

/-- `opt::bisection` (libopt.h lines 65-134).  The C++ defaults are
`tol = 1e-4`, `max_iter = 100`. -/
def bisection {α : Type} [LinearOrderedField α] (f : α → Option α) (a b : α)
    (tol : α) (max_iter : ℕ) : BisectRes α :=
  let fa := f a
  let fb := f b
  if olt (some 0) (omul fa fb) then
    ⟨a, ⟨.INVALID_RANGE, 0, omin (oabs fa) (oabs fb)⟩⟩
  else
    let mid := (a + b) / 2
    match bisectLoop f tol a b fa fb mid (f mid) 0 max_iter with
    | .early r => r
    | .done a2 b2 _ _ _ _ iter2 => bisectFinish f tol a2 b2 iter2

@[simp] theorem olt_some_some {α : Type} [LinearOrder α] (x y : α) :
    olt (some x) (some y) ↔ x < y := Iff.rfl

@[simp] theorem olt_none_left {α : Type} [LinearOrder α] (y : Option α) :
    ¬ olt none y := by cases y <;> exact fun h => h

@[simp] theorem olt_some_none {α : Type} [LinearOrder α] (x : α) :
    ¬ olt (some x) none := fun h => h

@[simp] theorem omul_some_some {α : Type} [Mul α] (x y : α) :
    omul (some x) (some y) = some (x * y) := rfl

@[simp] theorem omul_none_left {α : Type} [Mul α] (y : Option α) :
    omul none y = none := by cases y <;> rfl

@[simp] theorem omul_some_none {α : Type} [Mul α] (x : α) :
    omul (some x) none = none := rfl

@[simp] theorem oabs_some {α : Type} [Lattice α] [AddGroup α] (x : α) :
    oabs (some x) = some |x| := rfl

@[simp] theorem oabs_none {α : Type} [Lattice α] [AddGroup α] :
    oabs (α := α) none = none := rfl

end opt

noncomputable section

namespace eim

/-- Mode polarization (strip.h, enum Mode). -/
inductive Mode where
  | TE
  | TM
deriving DecidableEq

/-- The constant pi of the sources (strip.h, M_PI). -/
def pi : ℝ := Real.pi

/-- Vacuum permittivity in F/m (strip.h). -/
def eps0 : ℝ := 8.854188e-12

/-- Vacuum permeability in H/m (strip.h). -/
def mu0 : ℝ := 4 * pi * 1e-7

/-- Free-space speed of light (strip.h). -/
def c : ℝ := 1 / Real.sqrt (eps0 * mu0)

/-- Free-space impedance (strip.h). -/
def eta0 : ℝ := Real.sqrt (mu0 / eps0)

/-- C `atan2(y, x)` for finite arguments, written through `Real.arctan`:
the angle of the point (x, y) in (-pi, pi], with `atan2 0 0 = 0`. -/
def atan2 (y x : ℝ) : ℝ :=
  if 0 < x then Real.arctan (y / x)
  else if x < 0 then
    (if 0 ≤ y then Real.arctan (y / x) + pi else Real.arctan (y / x) - pi)
  else
    (if 0 < y then pi / 2 else if y < 0 then -(pi / 2) else 0)

/-- C `sqrt` on doubles: NaN (`none`) on negative input. -/
def dsqrt (x : ℝ) : Option ℝ := if x < 0 then none else some (Real.sqrt x)

/-- NaN-propagating sum. -/
def oadd : Option ℝ → Option ℝ → Option ℝ
  | some x, some y => some (x + y)
  | _, _ => none

/-- NaN-propagating difference. -/
def osub : Option ℝ → Option ℝ → Option ℝ
  | some x, some y => some (x - y)
  | _, _ => none

/-- NaN-propagating negation. -/
def oneg : Option ℝ → Option ℝ
  | some x => some (-x)
  | none => none

/-- C `atan2` lifted to NaN-aware values. -/
def oatan2 : Option ℝ → Option ℝ → Option ℝ
  | some y, some x => some (atan2 y x)
  | _, _ => none

/-- C `tanh` lifted to NaN-aware values. -/
def otanh : Option ℝ → Option ℝ
  | some x => some (Real.tanh x)
  | none => none

/-- NaN-aware division: a zero divisor is sent to `none`.  (In IEEE
arithmetic `1/0` is an infinity; the only division in the embedded code is
the `coth` of slot.h, where a zero divisor makes the subsequent
`0 * inf`-style products NaN, so collapsing it to `none` is conservative:
wherever the model produces a real value the C++ code produces the same
value.) -/
def odiv : Option ℝ → Option ℝ → Option ℝ
  | some x, some y => if y = 0 then none else some (x / y)
  | _, _ => none

/-- Characteristic equation of the three-layer slab
(strip.h, `eim::slab_equation`). -/
def slab_equation (mode : Mode) (n1 n2 n3 lambda W : ℝ) (j : ℤ) (neff : ℝ) :
    Option ℝ :=
  let k0 := 2 * pi * (1 / lambda)
  let gamma1 := opt.omul (some k0) (dsqrt (neff ^ 2 - n1 ^ 2))
  let gamma2 := opt.omul (some k0) (dsqrt (n2 ^ 2 - neff ^ 2))
  let gamma3 := opt.omul (some k0) (dsqrt (neff ^ 2 - n3 ^ 2))
  let lhs := opt.omul gamma2 (some W)
  match mode with
  | .TE =>
    let rhs := oadd (osub (oneg (oatan2 gamma2 gamma1)) (oatan2 gamma2 gamma3))
      (some (((j : ℝ) + 1) * pi))
    osub rhs lhs
  | .TM =>
    let rhs := oadd
      (osub (oneg (oatan2 (opt.omul (some (n1 ^ 2)) gamma2)
                          (opt.omul (some (n2 ^ 2)) gamma1)))
            (oatan2 (opt.omul (some (n3 ^ 2)) gamma2)
                    (opt.omul (some (n2 ^ 2)) gamma3)))
      (some (((j : ℝ) + 1) * pi))
    osub rhs lhs

/-- Three-layer slab solver (strip.h, `eim::solve_slab`, sequential
PAR == 0 branch): bisection brackets `[min(n1,n3), n2]` for both
polarizations, falling back to `min(n1,n3)` unless the run converged. -/
def solve_slab (n1 n2 n3 lambda W : ℝ) (j : ℤ) : ℝ × ℝ :=
  let slab_TE := fun neff => slab_equation .TE n1 n2 n3 lambda W j neff
  let slab_TM := fun neff => slab_equation .TM n1 n2 n3 lambda W j neff
  let nmin := min n1 n3
  let rTE := opt.bisection slab_TE nmin n2 (1 / 10000) 100
  let rTM := opt.bisection slab_TM nmin n2 (1 / 10000) 100
  ((if rTE.s.status = .CONVERGED then rTE.root else nmin),
   (if rTM.s.status = .CONVERGED then rTM.root else nmin))

/-- Five-layer slot characteristic equation, cosh-type even mode
(slot.h, `eim::slot_cosh_equation`). -/
def slot_cosh_equation (n_clad n_core n_slot lambda a b : ℝ) (j : ℤ)
    (neff : ℝ) : Option ℝ :=
  let k0 := 2 * pi / lambda
  let gamma_slot := opt.omul (some k0) (dsqrt (neff * neff - n_slot * n_slot))
  let kappa_core := opt.omul (some k0) (dsqrt (n_core * n_core - neff * neff))
  let gamma_clad := opt.omul (some k0) (dsqrt (neff * neff - n_clad * n_clad))
  let term1 := oatan2 (opt.omul (some (n_core * n_core)) gamma_clad)
    (opt.omul (some (n_clad * n_clad)) kappa_core)
  let term2 := oatan2
    (opt.omul (opt.omul (some (n_core * n_core)) gamma_slot)
      (otanh (opt.omul gamma_slot (some a))))
    (opt.omul (some (n_slot * n_slot)) kappa_core)
  let lhs := oadd (oadd term1 term2) (some ((j : ℝ) * pi))
  let rhs := opt.omul kappa_core (some (b - a))
  osub rhs lhs

/-- Five-layer slot characteristic equation, sinh-type odd mode
(slot.h, `eim::slot_sinh_equation`); coth(x) = 1/tanh(x). -/
def slot_sinh_equation (n_clad n_core n_slot lambda a b : ℝ) (j : ℤ)
    (neff : ℝ) : Option ℝ :=
  let k0 := 2 * pi / lambda
  let gamma_slot := opt.omul (some k0) (dsqrt (neff * neff - n_slot * n_slot))
  let kappa_core := opt.omul (some k0) (dsqrt (n_core * n_core - neff * neff))
  let gamma_clad := opt.omul (some k0) (dsqrt (neff * neff - n_clad * n_clad))
  let coth_term := odiv (some 1) (otanh (opt.omul gamma_slot (some a)))
  let term1 := oatan2 (opt.omul (some (n_core * n_core)) gamma_clad)
    (opt.omul (some (n_clad * n_clad)) kappa_core)
  let term2 := oatan2
    (opt.omul (opt.omul (some (n_core * n_core)) gamma_slot) coth_term)
    (opt.omul (some (n_slot * n_slot)) kappa_core)
  let lhs := oadd (oadd term1 term2) (some ((j : ℝ) * pi))
  let rhs := opt.omul kappa_core (some (b - a))
  osub rhs lhs

/-- Five-layer symmetric slot solver (slot.h, `eim::solve_slot_slab`):
brackets `[max(n_clad,n_slot), n_core]`, fallback `max(n_clad,n_slot)`. -/
def solve_slot_slab (n_clad n_core n_slot lambda w_slot w_core : ℝ) (j : ℤ) :
    ℝ × ℝ :=
  let a := w_slot / 2
  let b := a + w_core
  let cosh_func := fun neff =>
    slot_cosh_equation n_clad n_core n_slot lambda a b j neff
  let sinh_func := fun neff =>
    slot_sinh_equation n_clad n_core n_slot lambda a b j neff
  let nmin := max n_clad n_slot
  let r_cosh := opt.bisection cosh_func nmin n_core (1 / 10000) 100
  let r_sinh := opt.bisection sinh_func nmin n_core (1 / 10000) 100
  ((if r_cosh.s.status = .CONVERGED then r_cosh.root else nmin),
   (if r_sinh.s.status = .CONVERGED then r_sinh.root else nmin))

end eim

end

noncomputable section

namespace eim

/-- Decay constant gamma1 of `eim::mode_1D` (strip.h line 178). -/
def mode_gamma1 (neff n1 lambda : ℝ) : ℝ :=
  (2 * pi * (1 / lambda)) * Real.sqrt (neff ^ 2 - n1 ^ 2)

/-- Oscillation constant gamma2 of `eim::mode_1D` (strip.h line 179). -/
def mode_gamma2 (neff n2 lambda : ℝ) : ℝ :=
  (2 * pi * (1 / lambda)) * Real.sqrt (n2 ^ 2 - neff ^ 2)

/-- Decay constant gamma3 of `eim::mode_1D` (strip.h line 180). -/
def mode_gamma3 (neff n3 lambda : ℝ) : ℝ :=
  (2 * pi * (1 / lambda)) * Real.sqrt (neff ^ 2 - n3 ^ 2)

/-- Phase offset alpha of `eim::mode_1D` (strip.h lines 182-184). -/
def mode_alpha (mode : Mode) (neff n1 n2 lambda : ℝ) (j : ℤ) : ℝ :=
  -atan2 (mode_gamma1 neff n1 lambda * (if mode = .TE then 1 else n2 ^ 2))
      (mode_gamma2 neff n2 lambda * (if mode = .TE then 1 else n1 ^ 2)) +
    (j : ℝ) * pi

/-- Coefficient C2 of `eim::mode_1D` (strip.h line 197): the chosen scale. -/
def mode_C2 : ℝ := 1

/-- Coefficient C1 of `eim::mode_1D` (strip.h lines 198-199). -/
def mode_C1 (mode : Mode) (neff n1 n2 lambda : ℝ) (j : ℤ) : ℝ :=
  mode_C2 * Real.cos (mode_alpha mode neff n1 n2 lambda j) *
    (if mode = .TM then n2 ^ 2 / n1 ^ 2 else 1)

/-- Coefficient C3 of `eim::mode_1D` (strip.h lines 200-201). -/
def mode_C3 (mode : Mode) (neff n1 n2 n3 lambda W : ℝ) (j : ℤ) : ℝ :=
  mode_C2 * Real.cos (mode_gamma2 neff n2 lambda * W +
      mode_alpha mode neff n1 n2 lambda j) *
    (if mode = .TM then n2 ^ 2 / n3 ^ 2 else 1)

/-- Amplitude expression of the decay region x < 0 (strip.h line 222). -/
def mode_A_left (mode : Mode) (neff n1 n2 lambda : ℝ) (j : ℤ) (x : ℝ) : ℝ :=
  mode_C1 mode neff n1 n2 lambda j * Real.exp (mode_gamma1 neff n1 lambda * x)

/-- Amplitude expression of the core region 0 <= x <= W (strip.h line 234). -/
def mode_A_core (mode : Mode) (neff n1 n2 lambda : ℝ) (j : ℤ) (x : ℝ) : ℝ :=
  mode_C2 * Real.cos (mode_gamma2 neff n2 lambda * x +
    mode_alpha mode neff n1 n2 lambda j)

/-- Amplitude expression of the decay region x > W (strip.h line 246). -/
def mode_A_right (mode : Mode) (neff n1 n2 n3 lambda W : ℝ) (j : ℤ) (x : ℝ) :
    ℝ :=
  mode_C3 mode neff n1 n2 n3 lambda W j *
    Real.exp (-mode_gamma3 neff n3 lambda * (x - W))

/-- One sample of the three field outputs of `eim::mode_1D`:
amplitude A, lateral companion Bl, normal companion Bn. -/
structure Field1D where
  A : ℝ
  Bl : ℝ
  Bn : ℂ

/-- The per-sample body `calculate_field` of `eim::mode_1D`
(strip.h lines 216-256).  The local complex constant `j(1.0, 1.0)`
shadows the integer mode order inside the C++ lambda; the final (dead)
branch leaves the value-initialized zero of the output arrays. -/
def mode_1D_point (mode : Mode) (neff n1 n2 n3 lambda W : ℝ) (j : ℤ) (x : ℝ) :
    Field1D :=
  let gamma1 := mode_gamma1 neff n1 lambda
  let gamma2 := mode_gamma2 neff n2 lambda
  let gamma3 := mode_gamma3 neff n3 lambda
  let alpha := mode_alpha mode neff n1 n2 lambda j
  let jc : ℂ := ⟨1, 1⟩
  if x < 0 then
    let A := mode_A_left mode neff n1 n2 lambda j x
    ⟨A, if mode = .TE then A * n1 / eta0 else A * eta0 / n1,
      if mode = .TE then
        (Complex.ofReal (-gamma1 * A)) /
          (jc * 2 * (Complex.ofReal pi) * (Complex.ofReal c) /
            (Complex.ofReal lambda) * (Complex.ofReal mu0))
      else
        (Complex.ofReal (gamma1 * A)) /
          (jc * 2 * (Complex.ofReal pi) * (Complex.ofReal c) /
            (Complex.ofReal lambda) * (Complex.ofReal eps0) *
            (Complex.ofReal (n1 ^ 2)))⟩
  else if 0 ≤ x ∧ x ≤ W then
    let A := mode_A_core mode neff n1 n2 lambda j x
    let normal := mode_C2 * gamma2 * Real.sin (gamma2 * x + alpha)
    ⟨A, if mode = .TE then A * n1 / eta0 else A * eta0 / n1,
      if mode = .TE then
        (Complex.ofReal normal) /
          (jc * 2 * (Complex.ofReal pi) * (Complex.ofReal c) /
            (Complex.ofReal lambda) * (Complex.ofReal mu0))
      else
        (Complex.ofReal (-normal)) /
          (jc * 2 * (Complex.ofReal pi) * (Complex.ofReal c) /
            (Complex.ofReal lambda) * (Complex.ofReal eps0) *
            (Complex.ofReal (n2 ^ 2)))⟩
  else if W < x then
    let A := mode_A_right mode neff n1 n2 n3 lambda W j x
    ⟨A, if mode = .TE then A * n1 / eta0 else A * eta0 / n1,
      if mode = .TE then
        (Complex.ofReal (gamma3 * A)) /
          (jc * 2 * (Complex.ofReal pi) * (Complex.ofReal c) /
            (Complex.ofReal lambda) * (Complex.ofReal mu0))
      else
        (Complex.ofReal (gamma3 * A)) /
          (jc * 2 * (Complex.ofReal pi) * (Complex.ofReal c) /
            (Complex.ofReal lambda) * (Complex.ofReal eps0) *
            (Complex.ofReal (n3 ^ 2)))⟩
  else ⟨0, 0, 0⟩

end eim

/-- Strip waveguide functor (src/eim.cc, struct Waveguide). -/
structure Waveguide where
  wavelength : ℝ
  t_rib : ℝ
  t_slab : ℝ
  w_rib : ℝ
  w_slab : ℝ
  n_box : ℝ
  n_core : ℝ
  n_clad : ℝ
  mode_order : ℕ
  mode : eim.Mode

/-- The effective-index composition `Waveguide::operator()`
(src/eim.cc lines 84-104): two vertical three-layer solves at order 0,
then a lateral solve on the selected components; for the device TE mode
the TE components (get<0>) of the vertical solves feed the lateral solve
and the TM component (get<1>) of its result is returned, and conversely
for device TM. -/
def Waveguide.neff (wg : Waveguide) : ℝ :=
  let n1 := eim.solve_slab wg.n_box
    (if wg.t_slab ≠ 0 then wg.n_core else wg.n_clad) wg.n_clad
    wg.wavelength wg.t_slab 0
  let n2 := eim.solve_slab wg.n_box wg.n_core wg.n_clad wg.wavelength
    wg.t_rib 0
  let n3 := n1
  if wg.mode = .TE then
    (eim.solve_slab n1.1 n2.1 n3.1 wg.wavelength wg.w_rib
      (wg.mode_order : ℤ)).2
  else
    (eim.solve_slab n1.2 n2.2 n3.2 wg.wavelength wg.w_rib
      (wg.mode_order : ℤ)).1

/-- Modelled from the spec, section 4.6 step 2 (the sentence behind claim
C1): for a device-TE solve the three effective indices feeding the
lateral `solve_slab` are the TM components (get<1>) of the two vertical
solves, and the returned value is the opposite-indexed (get<0>) component
of the lateral result; mirrored for device TM. -/
def Waveguide.neffSpecSwap (wg : Waveguide) : ℝ :=
  let n1 := eim.solve_slab wg.n_box
    (if wg.t_slab ≠ 0 then wg.n_core else wg.n_clad) wg.n_clad
    wg.wavelength wg.t_slab 0
  let n2 := eim.solve_slab wg.n_box wg.n_core wg.n_clad wg.wavelength
    wg.t_rib 0
  let n3 := n1
  if wg.mode = .TE then
    (eim.solve_slab n1.2 n2.2 n3.2 wg.wavelength wg.w_rib
      (wg.mode_order : ℤ)).1
  else
    (eim.solve_slab n1.1 n2.1 n3.1 wg.wavelength wg.w_rib
      (wg.mode_order : ℤ)).2

end

/-- Claim C10: in all three piecewise regions, the lateral companion
component of the 1D field reconstructor equals the amplitude at that
position scaled by one fixed factor built from the box index n1 only:
A*n1/eta0 for TE and A*eta0/n1 for TM; the local indices n2, n3 never
enter the lateral field. -/
theorem C10_lateral_is_scaled_amplitude (mode : eim.Mode)
    (neff n1 n2 n3 lambda W : ℝ) (j : ℤ) (x : ℝ) :
    (eim.mode_1D_point mode neff n1 n2 n3 lambda W j x).Bl =
      (eim.mode_1D_point mode neff n1 n2 n3 lambda W j x).A *
        (if mode = eim.Mode.TE then n1 / eim.eta0 else eim.eta0 / n1) := by
  cases mode <;> unfold eim.mode_1D_point <;> split_ifs <;> simp <;> ring

namespace opt

theorem bisectLoop_zero {α : Type} [LinearOrderedField α] (f : α → Option α)
    (tol a b : α) (fa fb : Option α) (mid : α) (fmid : Option α) (iter : ℕ) :
    bisectLoop f tol a b fa fb mid fmid iter 0 = .done a b fa fb mid fmid iter :=
  rfl

theorem bisectLoop_stop {α : Type} [LinearOrderedField α] {f : α → Option α}
    {tol a b : α} {fa fb : Option α} {mid : α} {fmid : Option α} {iter : ℕ}
    (fuel : ℕ) (h : ¬(tol < mid ∧ olt (some tol) (oabs fmid))) :
    bisectLoop f tol a b fa fb mid fmid iter fuel =
      .done a b fa fb mid fmid iter := by
  cases fuel with
  | zero => rfl
  | succ n => rw [bisectLoop, if_neg h]

theorem bisectLoop_early {α : Type} [LinearOrderedField α] {f : α → Option α}
    {tol a b : α} {fa fb : Option α} {mid : α} {fmid : Option α} {iter : ℕ}
    (fuel : ℕ) (h : tol < mid ∧ olt (some tol) (oabs fmid))
    (hc : olt (oabs (f ((a + b) / 2))) (some tol)) :
    bisectLoop f tol a b fa fb mid fmid iter (fuel + 1) =
      .early ⟨(a + b) / 2, ⟨.CONVERGED, iter, oabs (f ((a + b) / 2))⟩⟩ := by
  rw [bisectLoop, if_pos h]
  simp only [if_pos hc]

theorem bisectLoop_left {α : Type} [LinearOrderedField α] {f : α → Option α}
    {tol a b : α} {fa fb : Option α} {mid : α} {fmid : Option α} {iter : ℕ}
    (fuel : ℕ) (h : tol < mid ∧ olt (some tol) (oabs fmid))
    (hc : ¬ olt (oabs (f ((a + b) / 2))) (some tol))
    (hs : olt (omul fa (f ((a + b) / 2))) (some 0)) :
    bisectLoop f tol a b fa fb mid fmid iter (fuel + 1) =
      bisectLoop f tol a ((a + b) / 2) fa (f ((a + b) / 2)) ((a + b) / 2)
        (f ((a + b) / 2)) (iter + 1) fuel := by
  rw [bisectLoop, if_pos h]
  simp only [if_neg hc, if_pos hs]

theorem bisectLoop_right {α : Type} [LinearOrderedField α] {f : α → Option α}
    {tol a b : α} {fa fb : Option α} {mid : α} {fmid : Option α} {iter : ℕ}
    (fuel : ℕ) (h : tol < mid ∧ olt (some tol) (oabs fmid))
    (hc : ¬ olt (oabs (f ((a + b) / 2))) (some tol))
    (hs : ¬ olt (omul fa (f ((a + b) / 2))) (some 0)) :
    bisectLoop f tol a b fa fb mid fmid iter (fuel + 1) =
      bisectLoop f tol ((a + b) / 2) b (f ((a + b) / 2)) fb ((a + b) / 2)
        (f ((a + b) / 2)) (iter + 1) fuel := by
  rw [bisectLoop, if_pos h]
  simp only [if_neg hc, if_neg hs]

theorem bisection_invalid {α : Type} [LinearOrderedField α] {f : α → Option α}
    {a b : α} (tol : α) (max_iter : ℕ)
    (h : olt (some 0) (omul (f a) (f b))) :
    bisection f a b tol max_iter =
      ⟨a, ⟨.INVALID_RANGE, 0, omin (oabs (f a)) (oabs (f b))⟩⟩ := by
  rw [bisection]
  simp only [if_pos h]

theorem bisection_to_loop {α : Type} [LinearOrderedField α] {f : α → Option α}
    {a b : α} (tol : α) (max_iter : ℕ)
    (h : ¬ olt (some 0) (omul (f a) (f b))) :
    bisection f a b tol max_iter =
      (match bisectLoop f tol a b (f a) (f b) ((a + b) / 2) (f ((a + b) / 2))
          0 max_iter with
        | .early r => r
        | .done a2 b2 _ _ _ _ iter2 => bisectFinish f tol a2 b2 iter2) := by
  rw [bisection]
  simp only [if_neg h]

theorem bisectFinish_eval {α : Type} [LinearOrderedField α] (f : α → Option α)
    (tol a b : α) (iter : ℕ) :
    bisectFinish f tol a b iter =
      ⟨(a + b) / 2,
        ⟨if |(a + b) / 2 - b| < tol ∨ |(a + b) / 2 - a| < tol then .DIVERGED
          else if (b - a) / 2 ≤ tol then .CONVERGED else .DIVERGED,
          iter, oabs (f ((a + b) / 2))⟩⟩ :=
  rfl

end opt

/-- Claim C2 (failing input): bisection on f(x) = 2x - 5 over [-6, 6] with
the default tolerance 1e-4 and budget 100 returns the midpoint 0 with
status DIVERGED after zero iterations: the loop guard compares the
midpoint value itself against the tolerance (the C++ condition is
pmid > tol, not a bracket-width test), and the very first midpoint of
this bracket is 0, so the loop never runs and the half-width test then
reports divergence.  The claimed behavior, a CONVERGED root within 1e-4
of 2.5, does not occur. -/
theorem C2_bisection_linear_diverges :
    opt.bisection (fun x : ℝ => some (2 * x - 5)) (-6) 6 (1 / 10000) 100 =
      ⟨0, ⟨.DIVERGED, 0, some 5⟩⟩ := by
  rw [opt.bisection_to_loop _ _ (by norm_num [opt.olt, opt.omul])]
  rw [opt.bisectLoop_stop 100 (by norm_num [opt.olt, opt.oabs])]
  norm_num [opt.bisectFinish_eval, opt.oabs]

/-- Claim C3 (amended): when the bisection loop falls through without an
early CONVERGED return, the post-loop code forces DIVERGED exactly when
the recomputed midpoint lies within the tolerance of one of the CURRENT
(narrowed) bracket endpoints - the local variables a and b that the loop
has been updating - and otherwise reports CONVERGED iff the remaining
half-width is at most the tolerance. -/
theorem C3_finish_status_characterization {α : Type} [LinearOrderedField α]
    (f : α → Option α) (tol a b : α) (iter : ℕ) :
    (opt.bisectFinish f tol a b iter).s.status = .DIVERGED ↔
      ((|(a + b) / 2 - b| < tol ∨ |(a + b) / 2 - a| < tol) ∨
        ¬((b - a) / 2 ≤ tol)) := by
  rw [opt.bisectFinish_eval]
  split_ifs with h1 h2 <;> simp_all

/-- The linear test function of the C3 counterexample run. -/
noncomputable def cexC3fun : ℝ → Option ℝ := fun x => some (1000000 * x - 1000000 / 3)

/-- Claim C3 (counterexample): running bisection on 10^6*(x - 1/3) over
[0, 1] with tolerance 1e-4 and budget 13 exhausts the loop at the bracket
[1365/4096, 2731/8192]; the final midpoint 5461/16384 is far from both
ORIGINAL endpoints 0 and 1 and the final half-width 1/16384 is within
tolerance, so the claim as stated predicts CONVERGED - but the code
returns DIVERGED, because the endpoint proximity test uses the NARROWED
endpoints, of which the midpoint is the average. -/
theorem C3_counterexample :
    (opt.bisection cexC3fun 0 1 (1 / 10000) 13).s.status = .DIVERGED ∧
    opt.bisectLoop cexC3fun (1 / 10000) 0 1 (cexC3fun 0) (cexC3fun 1)
        ((0 + 1) / 2) (cexC3fun ((0 + 1) / 2)) 0 13 =
      .done (1365 / 4096) (2731 / 8192) (some (-(1000000 / 12288)))
        (some (1000000 / 24576)) (2731 / 8192) (some (1000000 / 24576)) 13 ∧
    ((2731 / 8192 - 1365 / 4096) / 2 ≤ (1 / 10000 : ℝ)) ∧
    ¬(|((1365 / 4096 + 2731 / 8192) / 2 : ℝ) - 0| < 1 / 10000) ∧
    ¬(|((1365 / 4096 + 2731 / 8192) / 2 : ℝ) - 1| < 1 / 10000) := by
  have htrace : opt.bisectLoop cexC3fun (1 / 10000) 0 1 (cexC3fun 0)
      (cexC3fun 1) ((0 + 1) / 2) (cexC3fun ((0 + 1) / 2)) 0 13 =
      .done (1365 / 4096) (2731 / 8192) (some (-(1000000 / 12288)))
        (some (1000000 / 24576)) (2731 / 8192) (some (1000000 / 24576)) 13 := by
    rw [show (13 : ℕ) = 12 + 1 from rfl,
        opt.bisectLoop_left 12 (by norm_num [cexC3fun, opt.olt, opt.oabs, abs_of_pos, abs_of_neg])
          (by norm_num [cexC3fun, opt.olt, opt.oabs, abs_of_pos, abs_of_neg])
          (by norm_num [cexC3fun, opt.olt, opt.omul])]
    norm_num [cexC3fun]
    rw [show (12 : ℕ) = 11 + 1 from rfl,
        opt.bisectLoop_right 11 (by norm_num [cexC3fun, opt.olt, opt.oabs, abs_of_pos, abs_of_neg])
          (by norm_num [cexC3fun, opt.olt, opt.oabs, abs_of_pos, abs_of_neg])
          (by norm_num [cexC3fun, opt.olt, opt.omul])]
    norm_num [cexC3fun]
    rw [show (11 : ℕ) = 10 + 1 from rfl,
        opt.bisectLoop_left 10 (by norm_num [cexC3fun, opt.olt, opt.oabs, abs_of_pos, abs_of_neg])
          (by norm_num [cexC3fun, opt.olt, opt.oabs, abs_of_pos, abs_of_neg])
          (by norm_num [cexC3fun, opt.olt, opt.omul])]
    norm_num [cexC3fun]
    rw [show (10 : ℕ) = 9 + 1 from rfl,
        opt.bisectLoop_right 9 (by norm_num [cexC3fun, opt.olt, opt.oabs, abs_of_pos, abs_of_neg])
          (by norm_num [cexC3fun, opt.olt, opt.oabs, abs_of_pos, abs_of_neg])
          (by norm_num [cexC3fun, opt.olt, opt.omul])]
    norm_num [cexC3fun]
    rw [show (9 : ℕ) = 8 + 1 from rfl,
        opt.bisectLoop_left 8 (by norm_num [cexC3fun, opt.olt, opt.oabs, abs_of_pos, abs_of_neg])
          (by norm_num [cexC3fun, opt.olt, opt.oabs, abs_of_pos, abs_of_neg])
          (by norm_num [cexC3fun, opt.olt, opt.omul])]
    norm_num [cexC3fun]
    rw [show (8 : ℕ) = 7 + 1 from rfl,
        opt.bisectLoop_right 7 (by norm_num [cexC3fun, opt.olt, opt.oabs, abs_of_pos, abs_of_neg])
          (by norm_num [cexC3fun, opt.olt, opt.oabs, abs_of_pos, abs_of_neg])
          (by norm_num [cexC3fun, opt.olt, opt.omul])]
    norm_num [cexC3fun]
    rw [show (7 : ℕ) = 6 + 1 from rfl,
        opt.bisectLoop_left 6 (by norm_num [cexC3fun, opt.olt, opt.oabs, abs_of_pos, abs_of_neg])
          (by norm_num [cexC3fun, opt.olt, opt.oabs, abs_of_pos, abs_of_neg])
          (by norm_num [cexC3fun, opt.olt, opt.omul])]
    norm_num [cexC3fun]
    rw [show (6 : ℕ) = 5 + 1 from rfl,
        opt.bisectLoop_right 5 (by norm_num [cexC3fun, opt.olt, opt.oabs, abs_of_pos, abs_of_neg])
          (by norm_num [cexC3fun, opt.olt, opt.oabs, abs_of_pos, abs_of_neg])
          (by norm_num [cexC3fun, opt.olt, opt.omul])]
    norm_num [cexC3fun]
    rw [show (5 : ℕ) = 4 + 1 from rfl,
        opt.bisectLoop_left 4 (by norm_num [cexC3fun, opt.olt, opt.oabs, abs_of_pos, abs_of_neg])
          (by norm_num [cexC3fun, opt.olt, opt.oabs, abs_of_pos, abs_of_neg])
          (by norm_num [cexC3fun, opt.olt, opt.omul])]
    norm_num [cexC3fun]
    rw [show (4 : ℕ) = 3 + 1 from rfl,
        opt.bisectLoop_right 3 (by norm_num [cexC3fun, opt.olt, opt.oabs, abs_of_pos, abs_of_neg])
          (by norm_num [cexC3fun, opt.olt, opt.oabs, abs_of_pos, abs_of_neg])
          (by norm_num [cexC3fun, opt.olt, opt.omul])]
    norm_num [cexC3fun]
    rw [show (3 : ℕ) = 2 + 1 from rfl,
        opt.bisectLoop_left 2 (by norm_num [cexC3fun, opt.olt, opt.oabs, abs_of_pos, abs_of_neg])
          (by norm_num [cexC3fun, opt.olt, opt.oabs, abs_of_pos, abs_of_neg])
          (by norm_num [cexC3fun, opt.olt, opt.omul])]
    norm_num [cexC3fun]
    rw [show (2 : ℕ) = 1 + 1 from rfl,
        opt.bisectLoop_right 1 (by norm_num [cexC3fun, opt.olt, opt.oabs, abs_of_pos, abs_of_neg])
          (by norm_num [cexC3fun, opt.olt, opt.oabs, abs_of_pos, abs_of_neg])
          (by norm_num [cexC3fun, opt.olt, opt.omul])]
    norm_num [cexC3fun]
    rw [show (1 : ℕ) = 0 + 1 from rfl,
        opt.bisectLoop_left 0 (by norm_num [cexC3fun, opt.olt, opt.oabs, abs_of_pos, abs_of_neg])
          (by norm_num [cexC3fun, opt.olt, opt.oabs, abs_of_pos, abs_of_neg])
          (by norm_num [cexC3fun, opt.olt, opt.omul])]
    norm_num [cexC3fun]
    rw [opt.bisectLoop_zero]
  refine ⟨?_, htrace, by norm_num, by norm_num [abs_sub_lt_iff, abs_of_pos, abs_of_neg],
    by norm_num [abs_sub_lt_iff, abs_of_pos, abs_of_neg]⟩
  rw [opt.bisection_to_loop _ _ (by norm_num [cexC3fun, opt.olt, opt.omul]),
    htrace]
  norm_num [opt.bisectFinish_eval, cexC3fun, opt.oabs, abs_of_pos, abs_of_neg,
    abs_sub_lt_iff]

namespace eim

@[simp] theorem oadd_some_some (x y : ℝ) :
    oadd (some x) (some y) = some (x + y) := rfl

@[simp] theorem osub_some_some (x y : ℝ) :
    osub (some x) (some y) = some (x - y) := rfl

@[simp] theorem oneg_some (x : ℝ) : oneg (some x) = some (-x) := rfl

@[simp] theorem oatan2_some_some (y x : ℝ) :
    oatan2 (some y) (some x) = some (atan2 y x) := rfl

@[simp] theorem otanh_some (x : ℝ) : otanh (some x) = some (Real.tanh x) := rfl

theorem odiv_some_some {y : ℝ} (x : ℝ) (hy : y ≠ 0) :
    odiv (some x) (some y) = some (x / y) := by
  rw [odiv, if_neg hy]

theorem dsqrt_nonneg {x : ℝ} (h : 0 ≤ x) :
    dsqrt x = some (Real.sqrt x) := by
  rw [dsqrt, if_neg (not_lt.2 h)]

theorem dsqrt_neg {x : ℝ} (h : x < 0) : dsqrt x = none := by
  rw [dsqrt, if_pos h]

end eim

/-- Claim C6: for inputs with positive lower indices, positive wavelength
and the trial index in the guided band (max(n1,n3), n2), the TE slab
characteristic equation returns exactly
(-atan2(g2,g1) - atan2(g2,g3) + (j+1)*pi) - g2*W with k0 = 2*pi/lambda,
g1 = k0*sqrt(neff^2-n1^2), g2 = k0*sqrt(n2^2-neff^2),
g3 = k0*sqrt(neff^2-n3^2). -/
theorem C6_TE_residual_formula (n1 n2 n3 lambda W : ℝ) (j : ℤ) (neff : ℝ)
    (h1 : 0 ≤ n1) (h3 : 0 ≤ n3) (hlam : 0 < lambda)
    (hlo : max n1 n3 < neff) (hhi : neff < n2) :
    eim.slab_equation .TE n1 n2 n3 lambda W j neff =
      some ((-eim.atan2 (2 * Real.pi / lambda * Real.sqrt (n2 ^ 2 - neff ^ 2))
            (2 * Real.pi / lambda * Real.sqrt (neff ^ 2 - n1 ^ 2)) -
          eim.atan2 (2 * Real.pi / lambda * Real.sqrt (n2 ^ 2 - neff ^ 2))
            (2 * Real.pi / lambda * Real.sqrt (neff ^ 2 - n3 ^ 2)) +
          ((j : ℝ) + 1) * Real.pi) -
        2 * Real.pi / lambda * Real.sqrt (n2 ^ 2 - neff ^ 2) * W) := by
  have hn : 0 ≤ neff := le_trans (h1.trans (le_max_left n1 n3)) hlo.le
  have e1 : eim.dsqrt (neff ^ 2 - n1 ^ 2) =
      some (Real.sqrt (neff ^ 2 - n1 ^ 2)) :=
    eim.dsqrt_nonneg (by nlinarith [le_max_left n1 n3, hlo])
  have e2 : eim.dsqrt (n2 ^ 2 - neff ^ 2) =
      some (Real.sqrt (n2 ^ 2 - neff ^ 2)) :=
    eim.dsqrt_nonneg (by nlinarith)
  have e3 : eim.dsqrt (neff ^ 2 - n3 ^ 2) =
      some (Real.sqrt (neff ^ 2 - n3 ^ 2)) :=
    eim.dsqrt_nonneg (by nlinarith [le_max_right n1 n3, hlo])
  simp only [eim.slab_equation, e1, e2, e3, opt.omul_some_some,
    eim.oadd_some_some, eim.osub_some_some, eim.oneg_some,
    eim.oatan2_some_some, eim.pi]
  congr 1
  have : 2 * Real.pi * (1 / lambda) = 2 * Real.pi / lambda := by ring
  rw [this]

/-- Claim C6 witness: the formula instantiated at the concrete in-band
input (n1, n2, n3, lambda, W, j, neff) = (1, 2, 1, 1, 1, 0, 3/2). -/
theorem C6_TE_residual_formula_witness :
    (0 ≤ (1 : ℝ)) ∧ (0 < (1 : ℝ)) ∧ (max (1 : ℝ) 1 < 3 / 2) ∧
      ((3 / 2 : ℝ) < 2) ∧
    eim.slab_equation .TE 1 2 1 1 1 0 (3 / 2) =
      some ((-eim.atan2 (2 * Real.pi / 1 * Real.sqrt (2 ^ 2 - (3 / 2) ^ 2))
            (2 * Real.pi / 1 * Real.sqrt ((3 / 2) ^ 2 - 1 ^ 2)) -
          eim.atan2 (2 * Real.pi / 1 * Real.sqrt (2 ^ 2 - (3 / 2) ^ 2))
            (2 * Real.pi / 1 * Real.sqrt ((3 / 2) ^ 2 - 1 ^ 2)) +
          (((0 : ℤ) : ℝ) + 1) * Real.pi) -
        2 * Real.pi / 1 * Real.sqrt (2 ^ 2 - (3 / 2) ^ 2) * 1) :=
  ⟨by norm_num, by norm_num, by norm_num, by norm_num,
    C6_TE_residual_formula 1 2 1 1 1 0 (3 / 2) (by norm_num) (by norm_num)
      (by norm_num) (by norm_num) (by norm_num)⟩

theorem tanh_pos_of_pos {x : ℝ} (h : 0 < x) : 0 < Real.tanh x := by
  rw [Real.tanh_eq_sinh_div_cosh]
  exact div_pos (Real.sinh_pos_iff.2 h) (Real.cosh_pos x)

/-- Claim C7: for inputs with the trial index in the band
(max(n_clad, n_slot), n_core), positive wavelength, positive half-slot
width a, the five-layer slot residuals equal exactly
kappa*(b-a) - [atan2(ncore^2*gclad, nclad^2*kappa) +
atan2(ncore^2*gslot*tanh(gslot*a), nslot^2*kappa) + j*pi], the odd form
replacing tanh by coth = 1/tanh. -/
theorem C7_slot_residual_formulas (n_clad n_core n_slot lambda a b : ℝ)
    (j : ℤ) (neff : ℝ) (hc : 0 ≤ n_clad) (hs : 0 ≤ n_slot) (hlam : 0 < lambda)
    (ha : 0 < a) (hlo : max n_clad n_slot < neff) (hhi : neff < n_core) :
    eim.slot_cosh_equation n_clad n_core n_slot lambda a b j neff =
      some (2 * Real.pi / lambda * Real.sqrt (n_core * n_core - neff * neff) *
          (b - a) -
        (eim.atan2 (n_core * n_core *
            (2 * Real.pi / lambda * Real.sqrt (neff * neff - n_clad * n_clad)))
          (n_clad * n_clad *
            (2 * Real.pi / lambda * Real.sqrt (n_core * n_core - neff * neff))) +
         eim.atan2 (n_core * n_core *
            (2 * Real.pi / lambda * Real.sqrt (neff * neff - n_slot * n_slot)) *
            Real.tanh (2 * Real.pi / lambda *
              Real.sqrt (neff * neff - n_slot * n_slot) * a))
          (n_slot * n_slot *
            (2 * Real.pi / lambda * Real.sqrt (n_core * n_core - neff * neff))) +
         (j : ℝ) * Real.pi)) ∧
    eim.slot_sinh_equation n_clad n_core n_slot lambda a b j neff =
      some (2 * Real.pi / lambda * Real.sqrt (n_core * n_core - neff * neff) *
          (b - a) -
        (eim.atan2 (n_core * n_core *
            (2 * Real.pi / lambda * Real.sqrt (neff * neff - n_clad * n_clad)))
          (n_clad * n_clad *
            (2 * Real.pi / lambda * Real.sqrt (n_core * n_core - neff * neff))) +
         eim.atan2 (n_core * n_core *
            (2 * Real.pi / lambda * Real.sqrt (neff * neff - n_slot * n_slot)) *
            (1 / Real.tanh (2 * Real.pi / lambda *
              Real.sqrt (neff * neff - n_slot * n_slot) * a)))
          (n_slot * n_slot *
            (2 * Real.pi / lambda * Real.sqrt (n_core * n_core - neff * neff))) +
         (j : ℝ) * Real.pi)) := by
  have hn : 0 ≤ neff := le_trans (hc.trans (le_max_left n_clad n_slot)) hlo.le
  have e1 : eim.dsqrt (neff * neff - n_slot * n_slot) =
      some (Real.sqrt (neff * neff - n_slot * n_slot)) :=
    eim.dsqrt_nonneg (by nlinarith [le_max_right n_clad n_slot, hlo])
  have e2 : eim.dsqrt (n_core * n_core - neff * neff) =
      some (Real.sqrt (n_core * n_core - neff * neff)) :=
    eim.dsqrt_nonneg (by nlinarith)
  have e3 : eim.dsqrt (neff * neff - n_clad * n_clad) =
      some (Real.sqrt (neff * neff - n_clad * n_clad)) :=
    eim.dsqrt_nonneg (by nlinarith [le_max_left n_clad n_slot, hlo])
  have hk0 : 0 < 2 * Real.pi / lambda :=
    div_pos (by positivity) hlam
  have hgs : 0 < 2 * Real.pi / lambda *
      Real.sqrt (neff * neff - n_slot * n_slot) := by
    apply mul_pos hk0
    apply Real.sqrt_pos.2
    nlinarith [le_max_right n_clad n_slot, hlo]
  have htanh : Real.tanh (2 * Real.pi / lambda *
      Real.sqrt (neff * neff - n_slot * n_slot) * a) ≠ 0 :=
    ne_of_gt (tanh_pos_of_pos (mul_pos hgs ha))
  constructor
  · simp only [eim.slot_cosh_equation, e1, e2, e3, opt.omul_some_some,
      eim.oadd_some_some, eim.osub_some_some, eim.oatan2_some_some,
      eim.otanh_some, eim.pi]
  · simp only [eim.slot_sinh_equation, e1, e2, e3, opt.omul_some_some,
      eim.oadd_some_some, eim.osub_some_some, eim.oatan2_some_some,
      eim.otanh_some, eim.odiv_some_some _ htanh, eim.pi]

/-- Claim C7 witness: both slot residual formulas instantiated at the
concrete in-band input (n_clad, n_core, n_slot, lambda, a, b, j, neff) =
(1, 2, 1, 1, 1/2, 1, 0, 3/2). -/
theorem C7_slot_residual_formulas_witness :
    (0 ≤ (1 : ℝ)) ∧ (0 < (1 : ℝ)) ∧ (0 < (1 / 2 : ℝ)) ∧
      (max (1 : ℝ) 1 < 3 / 2) ∧ ((3 / 2 : ℝ) < 2) ∧
    (eim.slot_cosh_equation 1 2 1 1 (1 / 2) 1 0 (3 / 2) =
      some (2 * Real.pi / 1 * Real.sqrt (2 * 2 - 3 / 2 * (3 / 2)) *
          (1 - 1 / 2) -
        (eim.atan2 (2 * 2 *
            (2 * Real.pi / 1 * Real.sqrt (3 / 2 * (3 / 2) - 1 * 1)))
          (1 * 1 *
            (2 * Real.pi / 1 * Real.sqrt (2 * 2 - 3 / 2 * (3 / 2)))) +
         eim.atan2 (2 * 2 *
            (2 * Real.pi / 1 * Real.sqrt (3 / 2 * (3 / 2) - 1 * 1)) *
            Real.tanh (2 * Real.pi / 1 *
              Real.sqrt (3 / 2 * (3 / 2) - 1 * 1) * (1 / 2)))
          (1 * 1 *
            (2 * Real.pi / 1 * Real.sqrt (2 * 2 - 3 / 2 * (3 / 2)))) +
         ((0 : ℤ) : ℝ) * Real.pi)) ∧
    eim.slot_sinh_equation 1 2 1 1 (1 / 2) 1 0 (3 / 2) =
      some (2 * Real.pi / 1 * Real.sqrt (2 * 2 - 3 / 2 * (3 / 2)) *
          (1 - 1 / 2) -
        (eim.atan2 (2 * 2 *
            (2 * Real.pi / 1 * Real.sqrt (3 / 2 * (3 / 2) - 1 * 1)))
          (1 * 1 *
            (2 * Real.pi / 1 * Real.sqrt (2 * 2 - 3 / 2 * (3 / 2)))) +
         eim.atan2 (2 * 2 *
            (2 * Real.pi / 1 * Real.sqrt (3 / 2 * (3 / 2) - 1 * 1)) *
            (1 / Real.tanh (2 * Real.pi / 1 *
              Real.sqrt (3 / 2 * (3 / 2) - 1 * 1) * (1 / 2))))
          (1 * 1 *
            (2 * Real.pi / 1 * Real.sqrt (2 * 2 - 3 / 2 * (3 / 2)))) +
         ((0 : ℤ) : ℝ) * Real.pi))) :=
  ⟨by norm_num, by norm_num, by norm_num, by norm_num, by norm_num,
    C7_slot_residual_formulas 1 2 1 1 (1 / 2) 1 0 (3 / 2) (by norm_num)
      (by norm_num) (by norm_num) (by norm_num) (by norm_num) (by norm_num)⟩

@[simp] theorem eim_pi_def : eim.pi = Real.pi := rfl

theorem atan2_zero_of_pos {x : ℝ} (h : 0 < x) : eim.atan2 0 x = 0 := by
  rw [eim.atan2, if_pos h, zero_div, Real.arctan_zero]

/-- Claim C8 (counterexample): for the TM mode at
(neff, n1, n2, n3, lambda, j) = (1, 1, 2, 1, 1, 0) the decay-region
expression at x = 0 evaluates to C1 = 4 while the core-region expression
evaluates to C2*cos(alpha) = 1, so the amplitude produced by the field
reconstructor is NOT continuous at x = 0 for TM: the coefficient C1
carries the extra impedance factor n2^2/n1^2. -/
theorem C8_counterexample :
    eim.mode_A_left .TM 1 1 2 1 0 0 = 4 ∧
    eim.mode_A_core .TM 1 1 2 1 0 0 = 1 ∧
    eim.mode_A_left .TM 1 1 2 1 0 0 ≠ eim.mode_A_core .TM 1 1 2 1 0 0 := by
  have hg1 : eim.mode_gamma1 1 1 1 = 0 := by
    simp [eim.mode_gamma1]
  have hg2 : eim.mode_gamma2 1 2 1 * 1 ^ 2 > 0 := by
    rw [eim.mode_gamma2, eim_pi_def]
    have h0 : (0 : ℝ) < Real.sqrt (2 ^ 2 - 1 ^ 2) :=
      Real.sqrt_pos.2 (by norm_num)
    have hpi : (0 : ℝ) < 2 * Real.pi * (1 / 1) := by positivity
    exact mul_pos (mul_pos hpi h0) (by norm_num)
  have halpha : eim.mode_alpha .TM 1 1 2 1 0 = 0 := by
    rw [eim.mode_alpha, hg1]
    rw [show (0 : ℝ) * (if eim.Mode.TM = eim.Mode.TE then 1 else 2 ^ 2) = 0
      by simp]
    rw [atan2_zero_of_pos (by simpa using hg2)]
    norm_num
  refine ⟨?_, ?_, ?_⟩
  · rw [eim.mode_A_left, eim.mode_C1, halpha, hg1]
    norm_num [eim.mode_C2]
  · rw [eim.mode_A_core, halpha]
    norm_num [eim.mode_C2]
  · rw [eim.mode_A_left, eim.mode_A_core, eim.mode_C1, halpha, hg1]
    norm_num [eim.mode_C2]

/-- Claim C8 (amended): the piecewise amplitude of the 1D reconstructor
is continuous at both region boundaries for TE (C1 = C2 cos(alpha) and
C3 = C2 cos(gamma2 W + alpha)); for TM the coefficients carry the
impedance factors n2^2/n1^2 and n2^2/n3^2, so it is the index-squared
weighted amplitude that matches across each boundary
(n1^2 A_left(0) = n2^2 A_core(0) and n3^2 A_right(W) = n2^2 A_core(W)),
while the raw TM amplitude is discontinuous whenever those factors differ
from 1. -/
theorem C8_amended_boundary_matching (neff n1 n2 n3 lambda W : ℝ) (j : ℤ)
    (h1 : n1 ≠ 0) (h3 : n3 ≠ 0) :
    (eim.mode_A_left .TE neff n1 n2 lambda j 0 =
        eim.mode_A_core .TE neff n1 n2 lambda j 0 ∧
      eim.mode_A_right .TE neff n1 n2 n3 lambda W j W =
        eim.mode_A_core .TE neff n1 n2 lambda j W) ∧
    (n1 ^ 2 * eim.mode_A_left .TM neff n1 n2 lambda j 0 =
        n2 ^ 2 * eim.mode_A_core .TM neff n1 n2 lambda j 0 ∧
      n3 ^ 2 * eim.mode_A_right .TM neff n1 n2 n3 lambda W j W =
        n2 ^ 2 * eim.mode_A_core .TM neff n1 n2 lambda j W) := by
  refine ⟨⟨?_, ?_⟩, ?_, ?_⟩
  · simp [eim.mode_A_left, eim.mode_A_core, eim.mode_C1, eim.mode_C2]
  · simp [eim.mode_A_right, eim.mode_A_core, eim.mode_C3, eim.mode_C2]
  · simp [eim.mode_A_left, eim.mode_A_core, eim.mode_C1, eim.mode_C2]
    field_simp
    ring
  · simp [eim.mode_A_right, eim.mode_A_core, eim.mode_C3, eim.mode_C2]
    field_simp
    ring

/-- Claim C8 amended witness: the boundary-matching relations at the
concrete input (neff, n1, n2, n3, lambda, W, j) = (3/2, 1, 2, 1, 1, 1, 0). -/
theorem C8_amended_boundary_matching_witness :
    ((1 : ℝ) ≠ 0) ∧
    ((eim.mode_A_left .TE (3 / 2) 1 2 1 0 0 =
        eim.mode_A_core .TE (3 / 2) 1 2 1 0 0 ∧
      eim.mode_A_right .TE (3 / 2) 1 2 1 1 1 0 1 =
        eim.mode_A_core .TE (3 / 2) 1 2 1 0 1) ∧
    ((1 : ℝ) ^ 2 * eim.mode_A_left .TM (3 / 2) 1 2 1 0 0 =
        (2 : ℝ) ^ 2 * eim.mode_A_core .TM (3 / 2) 1 2 1 0 0 ∧
      (1 : ℝ) ^ 2 * eim.mode_A_right .TM (3 / 2) 1 2 1 1 1 0 1 =
        (2 : ℝ) ^ 2 * eim.mode_A_core .TM (3 / 2) 1 2 1 0 1)) :=
  ⟨by norm_num,
    C8_amended_boundary_matching (3 / 2) 1 2 1 1 1 0 (by norm_num) (by norm_num)⟩

namespace eim

@[simp] theorem oadd_none_left (y : Option ℝ) : oadd none y = none := by
  cases y <;> rfl

@[simp] theorem oadd_none_right (x : Option ℝ) : oadd x none = none := by
  cases x <;> rfl

@[simp] theorem osub_none_left (y : Option ℝ) : osub none y = none := by
  cases y <;> rfl

@[simp] theorem osub_none_right (x : Option ℝ) : osub x none = none := by
  cases x <;> rfl

@[simp] theorem oneg_none : oneg none = none := rfl

@[simp] theorem oatan2_none_left (x : Option ℝ) : oatan2 none x = none := by
  cases x <;> rfl

@[simp] theorem oatan2_none_right (y : Option ℝ) : oatan2 y none = none := by
  cases y <;> rfl

@[simp] theorem otanh_none : otanh none = none := rfl

theorem atan2_pos_zero {y : ℝ} (h : 0 < y) : atan2 y 0 = Real.pi / 2 := by
  rw [atan2, if_neg (lt_irrefl 0), if_neg (lt_irrefl 0), if_pos h, eim_pi_def]

theorem atan2_zero_zero : atan2 0 0 = 0 := by
  rw [atan2, if_neg (lt_irrefl 0), if_neg (lt_irrefl 0),
    if_neg (lt_irrefl 0), if_neg (lt_irrefl 0)]

theorem atan2_pos_branch {y x : ℝ} (h : 0 < x) :
    atan2 y x = Real.arctan (y / x) := by
  rw [atan2, if_pos h]

/-- The slab residual is NaN whenever the trial index lies below the top
cladding index (the gamma3 square root has a negative argument). -/
theorem slab_equation_none_of_below_n3 (mode : Mode) (n1 n2 n3 lambda W : ℝ)
    (j : ℤ) (neff : ℝ) (h : neff ^ 2 - n3 ^ 2 < 0) :
    slab_equation mode n1 n2 n3 lambda W j neff = none := by
  cases mode <;>
    simp [slab_equation, dsqrt_neg h]

/-- Value of either slab residual at the bottom of a symmetric bracket:
for n1 = n3, 0 < n1 < n2, lambda > 0,
f(n1) = j*pi - k0*sqrt(n2^2 - n1^2)*W. -/
theorem slab_equation_symmetric_bottom (mode : Mode) (n1 n2 lambda W : ℝ)
    (j : ℤ) (h1 : 0 < n1) (h2 : n1 < n2) (hlam : 0 < lambda) :
    slab_equation mode n1 n2 n1 lambda W j n1 =
      some ((j : ℝ) * Real.pi -
        2 * Real.pi * (1 / lambda) * Real.sqrt (n2 ^ 2 - n1 ^ 2) * W) := by
  have hz : dsqrt (n1 ^ 2 - n1 ^ 2) = some 0 := by
    rw [show n1 ^ 2 - n1 ^ 2 = 0 by ring, dsqrt_nonneg le_rfl, Real.sqrt_zero]
  have hg2 : 0 < 2 * Real.pi * (1 / lambda) * Real.sqrt (n2 ^ 2 - n1 ^ 2) := by
    have hs : 0 < Real.sqrt (n2 ^ 2 - n1 ^ 2) :=
      Real.sqrt_pos.2 (by nlinarith)
    have hk : 0 < 2 * Real.pi * (1 / lambda) := by positivity
    exact mul_pos hk hs
  have hsq : dsqrt (n2 ^ 2 - n1 ^ 2) = some (Real.sqrt (n2 ^ 2 - n1 ^ 2)) :=
    dsqrt_nonneg (by nlinarith)
  cases mode
  · simp only [slab_equation, hz, hsq, opt.omul_some_some, mul_zero,
      oatan2_some_some, oneg_some, osub_some_some, oadd_some_some, eim_pi_def]
    rw [atan2_pos_zero hg2]
    norm_num
    ring
  · simp only [slab_equation, hz, hsq, opt.omul_some_some, mul_zero,
      oatan2_some_some, oneg_some, osub_some_some, oadd_some_some, eim_pi_def]
    rw [atan2_pos_zero (by positivity :
      0 < n1 ^ 2 * (2 * Real.pi * (1 / lambda) * Real.sqrt (n2 ^ 2 - n1 ^ 2)))]
    norm_num
    ring

/-- Value of either slab residual at the top of the bracket: for
0 <= n1 < n2, 0 <= n3 < n2, lambda > 0, f(n2) = (j+1)*pi. -/
theorem slab_equation_top (mode : Mode) (n1 n2 n3 lambda W : ℝ) (j : ℤ)
    (h1 : 0 ≤ n1) (h12 : n1 < n2) (h3 : 0 ≤ n3) (h32 : n3 < n2)
    (hlam : 0 < lambda) :
    slab_equation mode n1 n2 n3 lambda W j n2 =
      some (((j : ℝ) + 1) * Real.pi) := by
  have hz : dsqrt (n2 ^ 2 - n2 ^ 2) = some 0 := by
    rw [show n2 ^ 2 - n2 ^ 2 = 0 by ring, dsqrt_nonneg le_rfl, Real.sqrt_zero]
  have hk : 0 < 2 * Real.pi * (1 / lambda) := by positivity
  have hg1 : 0 < 2 * Real.pi * (1 / lambda) * Real.sqrt (n2 ^ 2 - n1 ^ 2) :=
    mul_pos hk (Real.sqrt_pos.2 (by nlinarith))
  have hg3 : 0 < 2 * Real.pi * (1 / lambda) * Real.sqrt (n2 ^ 2 - n3 ^ 2) :=
    mul_pos hk (Real.sqrt_pos.2 (by nlinarith))
  have hs1 : dsqrt (n2 ^ 2 - n1 ^ 2) = some (Real.sqrt (n2 ^ 2 - n1 ^ 2)) :=
    dsqrt_nonneg (by nlinarith)
  have hs3 : dsqrt (n2 ^ 2 - n3 ^ 2) = some (Real.sqrt (n2 ^ 2 - n3 ^ 2)) :=
    dsqrt_nonneg (by nlinarith)
  have hn2 : 0 < n2 := lt_of_le_of_lt h1 h12
  cases mode
  · simp only [slab_equation, hz, hs1, hs3, opt.omul_some_some, mul_zero,
      oatan2_some_some, oneg_some, osub_some_some, oadd_some_some, eim_pi_def]
    rw [atan2_pos_branch hg1, atan2_pos_branch hg3]
    norm_num [Real.arctan_zero]
  · simp only [slab_equation, hz, hs1, hs3, opt.omul_some_some, mul_zero,
      oatan2_some_some, oneg_some, osub_some_some, oadd_some_some, eim_pi_def]
    rw [atan2_pos_branch (by positivity :
        0 < n2 ^ 2 * (2 * Real.pi * (1 / lambda) * Real.sqrt (n2 ^ 2 - n1 ^ 2))),
      atan2_pos_branch (by positivity :
        0 < n2 ^ 2 * (2 * Real.pi * (1 / lambda) * Real.sqrt (n2 ^ 2 - n3 ^ 2)))]
    norm_num [Real.arctan_zero]

end eim

/-- Claim C4: whenever a characteristic residual has no sign change over
its bracket - its values at the two endpoints have a positive product -
the AFFECTED component alone falls back, independently of the other
residual: solve_slab returns exactly min(n1,n3) in the corresponding
polarization slot and solve_slot_slab returns exactly max(n_clad,n_slot)
in the corresponding symmetry slot - never NaN and never a value outside
the bracket. -/
theorem C4_no_sign_change_fallback (n1 n2 n3 lambda W : ℝ) (j : ℤ)
    (nc nco ns lambda2 ws wc : ℝ) (j2 : ℤ) :
    (opt.olt (some 0) (opt.omul
        (eim.slab_equation .TE n1 n2 n3 lambda W j (min n1 n3))
        (eim.slab_equation .TE n1 n2 n3 lambda W j n2)) →
      (eim.solve_slab n1 n2 n3 lambda W j).1 = min n1 n3) ∧
    (opt.olt (some 0) (opt.omul
        (eim.slab_equation .TM n1 n2 n3 lambda W j (min n1 n3))
        (eim.slab_equation .TM n1 n2 n3 lambda W j n2)) →
      (eim.solve_slab n1 n2 n3 lambda W j).2 = min n1 n3) ∧
    (opt.olt (some 0) (opt.omul
        (eim.slot_cosh_equation nc nco ns lambda2 (ws / 2) (ws / 2 + wc) j2
          (max nc ns))
        (eim.slot_cosh_equation nc nco ns lambda2 (ws / 2) (ws / 2 + wc) j2
          nco)) →
      (eim.solve_slot_slab nc nco ns lambda2 ws wc j2).1 = max nc ns) ∧
    (opt.olt (some 0) (opt.omul
        (eim.slot_sinh_equation nc nco ns lambda2 (ws / 2) (ws / 2 + wc) j2
          (max nc ns))
        (eim.slot_sinh_equation nc nco ns lambda2 (ws / 2) (ws / 2 + wc) j2
          nco)) →
      (eim.solve_slot_slab nc nco ns lambda2 ws wc j2).2 = max nc ns) := by
  refine ⟨fun h => ?_, fun h => ?_, fun h => ?_, fun h => ?_⟩
  · rw [eim.solve_slab, opt.bisection_invalid _ _ h]
    simp
  · rw [eim.solve_slab, opt.bisection_invalid _ _ h]
    simp
  · rw [eim.solve_slot_slab, opt.bisection_invalid _ _ h]
    simp
  · rw [eim.solve_slot_slab, opt.bisection_invalid _ _ h]
    simp

theorem arctan_nonneg_of_nonneg {x : ℝ} (h : 0 ≤ x) : 0 ≤ Real.arctan x := by
  have h2 := Real.arctan_strictMono.monotone h
  rwa [Real.arctan_zero] at h2

theorem arctan_pos_of_pos {x : ℝ} (h : 0 < x) : 0 < Real.arctan x := by
  have h2 := Real.arctan_strictMono h
  rwa [Real.arctan_zero] at h2

theorem arctan_lt_self_of_pos {x : ℝ} (h : 0 < x) : Real.arctan x < x := by
  have h2 := Real.lt_tan (arctan_pos_of_pos h) (Real.arctan_lt_pi_div_two x)
  rwa [Real.tan_arctan] at h2

theorem arctan_le_self_of_nonneg {x : ℝ} (h : 0 ≤ x) : Real.arctan x ≤ x := by
  rcases eq_or_lt_of_le h with he | hlt
  · rw [← he, Real.arctan_zero]
  · exact (arctan_lt_self_of_pos hlt).le

theorem div_sqrt_le_arctan {x : ℝ} (h : 0 ≤ x) :
    x / Real.sqrt (1 + x ^ 2) ≤ Real.arctan x := by
  have hs : Real.sin (Real.arctan x) = x / Real.sqrt (1 + x ^ 2) :=
    Real.sin_arctan x
  have h2 : Real.sin (Real.arctan x) ≤ Real.arctan x :=
    Real.sin_le (arctan_nonneg_of_nonneg h)
  linarith [hs ▸ h2]

/-- Claim C4 witness: concrete no-sign-change inputs.  Strip: the
symmetric slab (1, 2, 1) at wavelength 1, thickness 1/10, order 1 - both
polarization residuals are positive at both bracket endpoints.  Slot:
(n_clad, n_core, n_slot) = (3/2, 2, 1) at wavelength 1, slot width 1,
core width 1/10, order 1 - both symmetry residuals are negative at both
endpoints.  The solver returns exactly the fallback pair in each case. -/
theorem C4_no_sign_change_fallback_witness :
    eim.solve_slab 1 2 1 1 (1 / 10) 1 = (1, 1) ∧
    eim.solve_slot_slab (3 / 2) 2 1 1 1 (1 / 10) 1 = (3 / 2, 3 / 2) := by
  have hmin : min (1 : ℝ) 1 = 1 := min_self 1
  have hmax : max (3 / 2 : ℝ) 1 = 3 / 2 := by norm_num
  have hsq3 : Real.sqrt ((2 : ℝ) ^ 2 - 1 ^ 2) < 5 := by
    rw [show ((2 : ℝ) ^ 2 - 1 ^ 2) = 3 by norm_num]
    exact (Real.sqrt_lt' (by norm_num)).2 (by norm_num)
  have hsq3nn : 0 ≤ Real.sqrt ((2 : ℝ) ^ 2 - 1 ^ 2) := Real.sqrt_nonneg _
  have hπ := Real.pi_pos
  -- value of either slab residual at the two bracket endpoints
  have hbotTE := eim.slab_equation_symmetric_bottom .TE 1 2 1 (1 / 10) 1
    (by norm_num) (by norm_num) (by norm_num)
  have hbotTM := eim.slab_equation_symmetric_bottom .TM 1 2 1 (1 / 10) 1
    (by norm_num) (by norm_num) (by norm_num)
  have htopTE := eim.slab_equation_top .TE 1 2 1 1 (1 / 10) 1
    (by norm_num) (by norm_num) (by norm_num) (by norm_num) (by norm_num)
  have htopTM := eim.slab_equation_top .TM 1 2 1 1 (1 / 10) 1
    (by norm_num) (by norm_num) (by norm_num) (by norm_num) (by norm_num)
  have hkey : 0 < Real.pi * (5 - Real.sqrt ((2 : ℝ) ^ 2 - 1 ^ 2)) :=
    mul_pos hπ (by linarith)
  have hposbot : 0 < (((1 : ℤ) : ℝ)) * Real.pi -
      2 * Real.pi * (1 / 1) * Real.sqrt ((2 : ℝ) ^ 2 - 1 ^ 2) * (1 / 10) := by
    push_cast
    rw [show ((2 : ℝ) ^ 2 - 1 ^ 2) = 3 by norm_num] at hkey ⊢
    nlinarith [hkey]
  have hpostop : 0 < (((1 : ℤ) : ℝ) + 1) * Real.pi := by
    push_cast
    nlinarith
  -- slot square roots
  have d1 : eim.dsqrt ((3 / 2 : ℝ) * (3 / 2) - 1 * 1) =
      some (Real.sqrt (5 / 4)) := by
    rw [show ((3 / 2 : ℝ) * (3 / 2) - 1 * 1) = 5 / 4 by norm_num]
    exact eim.dsqrt_nonneg (by norm_num)
  have d2 : eim.dsqrt ((2 : ℝ) * 2 - 3 / 2 * (3 / 2)) =
      some (Real.sqrt (7 / 4)) := by
    rw [show ((2 : ℝ) * 2 - 3 / 2 * (3 / 2)) = 7 / 4 by norm_num]
    exact eim.dsqrt_nonneg (by norm_num)
  have d3 : eim.dsqrt ((3 / 2 : ℝ) * (3 / 2) - 3 / 2 * (3 / 2)) = some 0 := by
    rw [show ((3 / 2 : ℝ) * (3 / 2) - 3 / 2 * (3 / 2)) = 0 by norm_num,
      eim.dsqrt_nonneg le_rfl, Real.sqrt_zero]
  have d4 : eim.dsqrt ((2 : ℝ) * 2 - 2 * 2) = some 0 := by
    rw [show ((2 : ℝ) * 2 - 2 * 2) = 0 by norm_num,
      eim.dsqrt_nonneg le_rfl, Real.sqrt_zero]
  have d5 : eim.dsqrt ((2 : ℝ) * 2 - 1 * 1) = some (Real.sqrt 3) := by
    rw [show ((2 : ℝ) * 2 - 1 * 1) = 3 by norm_num]
    exact eim.dsqrt_nonneg (by norm_num)
  have hs54 : 0 < Real.sqrt (5 / 4 : ℝ) := Real.sqrt_pos.2 (by norm_num)
  have hs74 : 0 < Real.sqrt (7 / 4 : ℝ) := Real.sqrt_pos.2 (by norm_num)
  have hs3 : 0 < Real.sqrt (3 : ℝ) := Real.sqrt_pos.2 (by norm_num)
  have hs74lt : Real.sqrt (7 / 4 : ℝ) < 3 / 2 :=
    (Real.sqrt_lt' (by norm_num)).2 (by norm_num)
  have htanh54 : 0 < Real.tanh (2 * Real.pi / 1 * Real.sqrt (5 / 4) * (1 / 2)) :=
    tanh_pos_of_pos (by positivity)
  have htanh3 : 0 < Real.tanh (2 * Real.pi / 1 * Real.sqrt 3 * (1 / 2)) :=
    tanh_pos_of_pos (by positivity)
  -- slot cosh residual at the bottom endpoint
  have hcoshbot : eim.slot_cosh_equation (3 / 2) 2 1 1 (1 / 2) (1 / 2 + 1 / 10)
      1 (3 / 2) =
      some (2 * Real.pi / 1 * Real.sqrt (7 / 4) * (1 / 2 + 1 / 10 - 1 / 2) -
        (Real.arctan (2 * 2 * (2 * Real.pi / 1 * Real.sqrt (5 / 4)) *
            Real.tanh (2 * Real.pi / 1 * Real.sqrt (5 / 4) * (1 / 2)) /
          (1 * 1 * (2 * Real.pi / 1 * Real.sqrt (7 / 4)))) +
          ((1 : ℤ) : ℝ) * Real.pi)) := by
    simp only [eim.slot_cosh_equation, d1, d2, d3, opt.omul_some_some,
      eim.otanh_some, eim.oatan2_some_some, eim.oadd_some_some,
      eim.osub_some_some, mul_zero, eim_pi_def]
    rw [atan2_zero_of_pos (by positivity), eim.atan2_pos_branch
      (by positivity)]
    norm_num
  -- slot cosh residual at the top endpoint
  have hcoshtop : eim.slot_cosh_equation (3 / 2) 2 1 1 (1 / 2) (1 / 2 + 1 / 10)
      1 2 =
      some (0 - (Real.pi / 2 + Real.pi / 2 + ((1 : ℤ) : ℝ) * Real.pi)) := by
    simp only [eim.slot_cosh_equation, d4, d5, d2, opt.omul_some_some,
      eim.otanh_some, eim.oatan2_some_some, eim.oadd_some_some,
      eim.osub_some_some, mul_zero, eim_pi_def,
      show eim.dsqrt ((2 : ℝ) * 2 - 3 / 2 * (3 / 2)) =
        some (Real.sqrt (7 / 4)) from d2]
    rw [eim.atan2_pos_zero (by positivity), eim.atan2_pos_zero (by positivity)]
    norm_num
  -- slot sinh residual at the bottom endpoint
  have hsinhbot : eim.slot_sinh_equation (3 / 2) 2 1 1 (1 / 2) (1 / 2 + 1 / 10)
      1 (3 / 2) =
      some (2 * Real.pi / 1 * Real.sqrt (7 / 4) * (1 / 2 + 1 / 10 - 1 / 2) -
        (Real.arctan (2 * 2 * (2 * Real.pi / 1 * Real.sqrt (5 / 4)) *
            (1 / Real.tanh (2 * Real.pi / 1 * Real.sqrt (5 / 4) * (1 / 2))) /
          (1 * 1 * (2 * Real.pi / 1 * Real.sqrt (7 / 4)))) +
          ((1 : ℤ) : ℝ) * Real.pi)) := by
    simp only [eim.slot_sinh_equation, d1, d2, d3, opt.omul_some_some,
      eim.otanh_some, eim.odiv_some_some _ (ne_of_gt htanh54),
      eim.oatan2_some_some, eim.oadd_some_some, eim.osub_some_some, mul_zero,
      eim_pi_def]
    rw [atan2_zero_of_pos (by positivity), eim.atan2_pos_branch
      (by positivity)]
    norm_num
  -- slot sinh residual at the top endpoint
  have hsinhtop : eim.slot_sinh_equation (3 / 2) 2 1 1 (1 / 2) (1 / 2 + 1 / 10)
      1 2 =
      some (0 - (Real.pi / 2 + Real.pi / 2 + ((1 : ℤ) : ℝ) * Real.pi)) := by
    simp only [eim.slot_sinh_equation, d4, d5, d2, opt.omul_some_some,
      eim.otanh_some, eim.odiv_some_some _ (ne_of_gt htanh3),
      eim.oatan2_some_some, eim.oadd_some_some, eim.osub_some_some, mul_zero,
      eim_pi_def]
    rw [eim.atan2_pos_zero (by positivity),
      eim.atan2_pos_zero (by positivity)]
    norm_num
  -- the cosh/sinh bottom values are negative
  have harctannn : 0 ≤ Real.arctan (2 * 2 * (2 * Real.pi / 1 * Real.sqrt (5 / 4)) *
      Real.tanh (2 * Real.pi / 1 * Real.sqrt (5 / 4) * (1 / 2)) /
      (1 * 1 * (2 * Real.pi / 1 * Real.sqrt (7 / 4)))) :=
    arctan_nonneg_of_nonneg (by positivity)
  have harctannn2 : 0 ≤ Real.arctan (2 * 2 * (2 * Real.pi / 1 * Real.sqrt (5 / 4)) *
      (1 / Real.tanh (2 * Real.pi / 1 * Real.sqrt (5 / 4) * (1 / 2))) /
      (1 * 1 * (2 * Real.pi / 1 * Real.sqrt (7 / 4)))) :=
    arctan_nonneg_of_nonneg (by positivity)
  have hkapsmall : 2 * Real.pi / 1 * Real.sqrt (7 / 4) * (1 / 2 + 1 / 10 - 1 / 2) <
      Real.pi := by
    have h1 : 2 * Real.pi / 1 * Real.sqrt (7 / 4) * (1 / 2 + 1 / 10 - 1 / 2) =
        Real.pi * Real.sqrt (7 / 4) / 5 := by ring
    rw [h1]
    nlinarith [hs74lt, hs74]
  have hfTE : opt.olt (some (0 : ℝ)) (opt.omul
      (eim.slab_equation .TE 1 2 1 1 (1 / 10) 1 (min 1 1))
      (eim.slab_equation .TE 1 2 1 1 (1 / 10) 1 2)) := by
    rw [hmin, hbotTE, htopTE]
    simp only [opt.omul_some_some, opt.olt_some_some]
    exact mul_pos hposbot hpostop
  have hfTM : opt.olt (some (0 : ℝ)) (opt.omul
      (eim.slab_equation .TM 1 2 1 1 (1 / 10) 1 (min 1 1))
      (eim.slab_equation .TM 1 2 1 1 (1 / 10) 1 2)) := by
    rw [hmin, hbotTM, htopTM]
    simp only [opt.omul_some_some, opt.olt_some_some]
    exact mul_pos hposbot hpostop
  have hfCO : opt.olt (some (0 : ℝ)) (opt.omul
      (eim.slot_cosh_equation (3 / 2) 2 1 1 (1 / 2) (1 / 2 + 1 / 10) 1
        (max (3 / 2) 1))
      (eim.slot_cosh_equation (3 / 2) 2 1 1 (1 / 2) (1 / 2 + 1 / 10) 1 2)) := by
    rw [hmax, hcoshbot, hcoshtop]
    simp only [opt.omul_some_some, opt.olt_some_some]
    apply mul_pos_of_neg_of_neg <;> push_cast <;>
      linarith [hkapsmall, harctannn, hπ]
  have hfSI : opt.olt (some (0 : ℝ)) (opt.omul
      (eim.slot_sinh_equation (3 / 2) 2 1 1 (1 / 2) (1 / 2 + 1 / 10) 1
        (max (3 / 2) 1))
      (eim.slot_sinh_equation (3 / 2) 2 1 1 (1 / 2) (1 / 2 + 1 / 10) 1 2)) := by
    rw [hmax, hsinhbot, hsinhtop]
    simp only [opt.omul_some_some, opt.olt_some_some]
    apply mul_pos_of_neg_of_neg <;> push_cast <;>
      linarith [hkapsmall, harctannn2, hπ]
  obtain ⟨hc1, hc2, hc3, hc4⟩ := C4_no_sign_change_fallback 1 2 1 1 (1 / 10) 1
    (3 / 2) 2 1 1 1 (1 / 10) 1
  have e1 := hc1 hfTE
  have e2 := hc2 hfTM
  have e3 := hc3 hfCO
  have e4 := hc4 hfSI
  rw [hmin] at e1 e2
  rw [hmax] at e3 e4
  exact ⟨Prod.ext e1 e2, Prod.ext e3 e4⟩

namespace opt

/-- Bracket invariant of the bisection loop: starting from a bracket
a < b, an early CONVERGED return produces a root strictly inside (a, b),
and a fall-through leaves a narrowed bracket a <= a2 < b2 <= b. -/
theorem bisectLoop_bracket {α : Type} [LinearOrderedField α]
    (f : α → Option α) (tol : α) :
    ∀ (fuel : ℕ) (a b : α) (fa fb : Option α) (mid : α) (fmid : Option α)
      (iter : ℕ), a < b →
      (∀ r, bisectLoop f tol a b fa fb mid fmid iter fuel = .early r →
        a < r.root ∧ r.root < b) ∧
      (∀ a2 b2 fa2 fb2 mid2 fmid2 iter2,
        bisectLoop f tol a b fa fb mid fmid iter fuel =
          .done a2 b2 fa2 fb2 mid2 fmid2 iter2 →
        a ≤ a2 ∧ a2 < b2 ∧ b2 ≤ b) := by
  intro fuel
  induction fuel with
  | zero =>
    intro a b fa fb mid fmid iter hab
    constructor
    · intro r hr
      exact absurd hr (by rw [bisectLoop_zero]; exact fun h => nomatch h)
    · intro a2 b2 fa2 fb2 mid2 fmid2 iter2 hdone
      rw [bisectLoop_zero] at hdone
      cases hdone
      exact ⟨le_rfl, hab, le_rfl⟩
  | succ n ih =>
    intro a b fa fb mid fmid iter hab
    have hmidl : a < (a + b) / 2 := left_lt_add_div_two.2 hab
    have hmidr : (a + b) / 2 < b := add_div_two_lt_right.2 hab
    by_cases hg : tol < mid ∧ olt (some tol) (oabs fmid)
    · by_cases hc : olt (oabs (f ((a + b) / 2))) (some tol)
      · rw [bisectLoop_early n hg hc]
        constructor
        · intro r hr
          cases hr
          exact ⟨hmidl, hmidr⟩
        · intro a2 b2 fa2 fb2 mid2 fmid2 iter2 hdone
          exact nomatch hdone
      · by_cases hs : olt (omul fa (f ((a + b) / 2))) (some 0)
        · rw [bisectLoop_left n hg hc hs]
          obtain ⟨ihe, ihd⟩ := ih a ((a + b) / 2) fa (f ((a + b) / 2))
            ((a + b) / 2) (f ((a + b) / 2)) (iter + 1) hmidl
          constructor
          · intro r hr
            obtain ⟨h1, h2⟩ := ihe r hr
            exact ⟨h1, h2.trans hmidr⟩
          · intro a2 b2 fa2 fb2 mid2 fmid2 iter2 hdone
            obtain ⟨h1, h2, h3⟩ := ihd _ _ _ _ _ _ _ hdone
            exact ⟨h1, h2, h3.trans hmidr.le⟩
        · rw [bisectLoop_right n hg hc hs]
          obtain ⟨ihe, ihd⟩ := ih ((a + b) / 2) b (f ((a + b) / 2)) fb
            ((a + b) / 2) (f ((a + b) / 2)) (iter + 1) hmidr
          constructor
          · intro r hr
            obtain ⟨h1, h2⟩ := ihe r hr
            exact ⟨hmidl.trans h1, h2⟩
          · intro a2 b2 fa2 fb2 mid2 fmid2 iter2 hdone
            obtain ⟨h1, h2, h3⟩ := ihd _ _ _ _ _ _ _ hdone
            exact ⟨hmidl.le.trans h1, h2, h3⟩
    · rw [bisectLoop_stop (n + 1) hg]
      constructor
      · intro r hr
        exact nomatch hr
      · intro a2 b2 fa2 fb2 mid2 fmid2 iter2 hdone
        cases hdone
        exact ⟨le_rfl, hab, le_rfl⟩

/-- Whatever bisection returns lies in [a, b): the INVALID_RANGE branch
returns a itself and every midpoint lies strictly inside the bracket. -/
theorem bisection_root_mem {α : Type} [LinearOrderedField α]
    (f : α → Option α) (a b tol : α) (max_iter : ℕ) (hab : a < b) :
    a ≤ (bisection f a b tol max_iter).root ∧
      (bisection f a b tol max_iter).root < b := by
  by_cases hinv : olt (some 0) (omul (f a) (f b))
  · rw [bisection_invalid tol max_iter hinv]
    exact ⟨le_rfl, hab⟩
  · rw [bisection_to_loop tol max_iter hinv]
    obtain ⟨he, hd⟩ := bisectLoop_bracket f tol max_iter a b (f a) (f b)
      ((a + b) / 2) (f ((a + b) / 2)) 0 hab
    cases hL : bisectLoop f tol a b (f a) (f b) ((a + b) / 2)
        (f ((a + b) / 2)) 0 max_iter with
    | early r =>
      obtain ⟨h1, h2⟩ := he r hL
      exact ⟨h1.le, h2⟩
    | done a2 b2 fa2 fb2 mid2 fmid2 iter2 =>
      obtain ⟨h1, h2, h3⟩ := hd _ _ _ _ _ _ _ hL
      dsimp only
      rw [bisectFinish_eval]
      have hl : a2 < (a2 + b2) / 2 := left_lt_add_div_two.2 h2
      have hr : (a2 + b2) / 2 < b2 := add_div_two_lt_right.2 h2
      exact ⟨h1.trans hl.le, hr.trans_le h3⟩

end opt

/-- Claim C5 (amended): each component of the pair returned by solve_slab
lies in the half-open bracket [min(n1,n3), n2) whenever
min(n1,n3) < n2 - never NaN, never outside the bracket; it equals the
bottom endpoint min(n1,n3) exactly in the fallback case, which can lie at
or below max(n1,n3), so the strict lower bound max(n_box, n_clad) of the
original claim holds only when the root-find actually converges to an
interior root. -/
theorem C5_amended_components_in_bracket (n1 n2 n3 lambda W : ℝ) (j : ℤ)
    (h : min n1 n3 < n2) :
    (min n1 n3 ≤ (eim.solve_slab n1 n2 n3 lambda W j).1 ∧
      (eim.solve_slab n1 n2 n3 lambda W j).1 < n2) ∧
    (min n1 n3 ≤ (eim.solve_slab n1 n2 n3 lambda W j).2 ∧
      (eim.solve_slab n1 n2 n3 lambda W j).2 < n2) := by
  obtain ⟨hTE1, hTE2⟩ := opt.bisection_root_mem
    (fun neff => eim.slab_equation .TE n1 n2 n3 lambda W j neff)
    (min n1 n3) n2 (1 / 10000) 100 h
  obtain ⟨hTM1, hTM2⟩ := opt.bisection_root_mem
    (fun neff => eim.slab_equation .TM n1 n2 n3 lambda W j neff)
    (min n1 n3) n2 (1 / 10000) 100 h
  rw [eim.solve_slab]
  constructor
  · constructor <;> dsimp only <;> split_ifs <;> first
      | exact hTE1 | exact hTE2 | exact le_rfl | exact h
  · constructor <;> dsimp only <;> split_ifs <;> first
      | exact hTM1 | exact hTM2 | exact le_rfl | exact h

/-- Claim C5 amended witness: the components at the concrete input
(1, 2, 9/5, 1, 1, 0) lie in [min(1, 9/5), 2) = [1, 2). -/
theorem C5_amended_components_in_bracket_witness :
    (min (1 : ℝ) (9 / 5) < 2) ∧
    ((min (1 : ℝ) (9 / 5) ≤ (eim.solve_slab 1 2 (9 / 5) 1 1 0).1 ∧
      (eim.solve_slab 1 2 (9 / 5) 1 1 0).1 < 2) ∧
    (min (1 : ℝ) (9 / 5) ≤ (eim.solve_slab 1 2 (9 / 5) 1 1 0).2 ∧
      (eim.solve_slab 1 2 (9 / 5) 1 1 0).2 < 2)) :=
  ⟨by norm_num, C5_amended_components_in_bracket 1 2 (9 / 5) 1 1 0
    (by norm_num)⟩

/-- Claim C5 (counterexample): the valid input n_box = 1, n_core = 2,
n_clad = 9/5, wavelength 1, W = 1, order j = 0 has n_core greater than
both bounding indices, yet solve_slab returns (1, 1): the residual is NaN
at the bracket bottom and at the first midpoint 3/2 (both lie below the
top cladding index 9/5), so the loop guard is false at once, the status
is DIVERGED and both components fall back to min(n_box, n_clad) = 1,
which is NOT strictly between max(n_box, n_clad) = 9/5 and n_core = 2. -/
theorem C5_counterexample :
    eim.solve_slab 1 2 (9 / 5) 1 1 0 = (1, 1) ∧
    ¬(max (1 : ℝ) (9 / 5) < (eim.solve_slab 1 2 (9 / 5) 1 1 0).1) := by
  have hminv : min (1 : ℝ) (9 / 5) = 1 := by norm_num
  have hnone1 : ∀ mode, eim.slab_equation mode 1 2 (9 / 5) 1 1 0 1 = none :=
    fun mode => eim.slab_equation_none_of_below_n3 mode 1 2 (9 / 5) 1 1 0 1
      (by norm_num)
  have hnonem : ∀ mode,
      eim.slab_equation mode 1 2 (9 / 5) 1 1 0 ((1 + 2) / 2) = none :=
    fun mode => eim.slab_equation_none_of_below_n3 mode 1 2 (9 / 5) 1 1 0
      ((1 + 2) / 2) (by norm_num)
  have hbisTE : opt.bisection
      (fun neff => eim.slab_equation .TE 1 2 (9 / 5) 1 1 0 neff) 1 2
      (1 / 10000) 100 =
      ⟨(1 + 2) / 2, ⟨.DIVERGED, 0,
        opt.oabs (eim.slab_equation .TE 1 2 (9 / 5) 1 1 0 ((1 + 2) / 2))⟩⟩ := by
    rw [opt.bisection_to_loop _ _ (by simp [hnone1 eim.Mode.TE])]
    rw [opt.bisectLoop_stop 100 (by simp [hnonem eim.Mode.TE])]
    dsimp only
    rw [opt.bisectFinish_eval]
    norm_num [abs_sub_lt_iff]
  have hbisTM : opt.bisection
      (fun neff => eim.slab_equation .TM 1 2 (9 / 5) 1 1 0 neff) 1 2
      (1 / 10000) 100 =
      ⟨(1 + 2) / 2, ⟨.DIVERGED, 0,
        opt.oabs (eim.slab_equation .TM 1 2 (9 / 5) 1 1 0 ((1 + 2) / 2))⟩⟩ := by
    rw [opt.bisection_to_loop _ _ (by simp [hnone1 eim.Mode.TM])]
    rw [opt.bisectLoop_stop 100 (by simp [hnonem eim.Mode.TM])]
    dsimp only
    rw [opt.bisectFinish_eval]
    norm_num [abs_sub_lt_iff]
  constructor
  · rw [eim.solve_slab, hminv, hbisTE, hbisTM]
    simp
  · rw [eim.solve_slab, hminv, hbisTE, hbisTM]
    simp

namespace eim

/-- Both slab residuals at a fully degenerate layer stack
(n1 = n2 = n3 = neff = x): every decay constant is zero and the residual
collapses to (j+1)*pi. -/
theorem slab_equation_degenerate (mode : Mode) (x lam w : ℝ) (j : ℤ) :
    slab_equation mode x x x lam w j x = some (((j : ℝ) + 1) * Real.pi) := by
  have hz : dsqrt (0 : ℝ) = some 0 := by
    rw [dsqrt_nonneg le_rfl, Real.sqrt_zero]
  cases mode <;>
    simp [slab_equation, hz, atan2_zero_zero]

/-- The lateral solve of the strip composition on a degenerate triple
(n1 = n2 = n3 = x) hits the INVALID_RANGE branch at once (the residual is
the constant (j+1)*pi at both endpoints of the empty bracket [x, x]) and
returns the fallback pair (x, x), for every order j >= 0. -/
theorem solve_slab_degenerate (x lam w : ℝ) (j : ℤ) (hj : 0 ≤ j) :
    solve_slab x x x lam w j = (x, x) := by
  have hmin : min x x = x := min_self x
  have hpos : (0 : ℝ) < (((j : ℝ) + 1) * Real.pi) * (((j : ℝ) + 1) * Real.pi) := by
    have hj1 : (0 : ℝ) < (j : ℝ) + 1 := by
      have : (0 : ℝ) ≤ (j : ℝ) := by exact_mod_cast hj
      linarith
    have := mul_pos hj1 Real.pi_pos
    exact mul_pos this this
  have hbis : ∀ mode, opt.bisection
      (fun neff => slab_equation mode x x x lam w j neff) x x
      (1 / 10000) 100 =
      ⟨x, ⟨.INVALID_RANGE, 0,
        opt.omin (opt.oabs (slab_equation mode x x x lam w j x))
          (opt.oabs (slab_equation mode x x x lam w j x))⟩⟩ := by
    intro mode
    exact opt.bisection_invalid _ _ (by
      simp only [slab_equation_degenerate, opt.omul_some_some,
        opt.olt_some_some]
      exact hpos)
  rw [solve_slab, hmin, hbis .TE, hbis .TM]
  simp

end eim

/-- Trial thickness for the C1 counterexample waveguide: chosen so that
the TE residual of the symmetric vertical stack (1, 2, 1) at wavelength 1
vanishes exactly at the second bisection midpoint 7/4. -/
noncomputable def cexC1T : ℝ :=
  2 * (Real.pi - 2 * Real.arctan (Real.sqrt (5 / 11))) /
    (Real.pi * Real.sqrt 15)

/-- The C1 counterexample waveguide: symmetric strip n_box = n_clad = 1,
n_core = 2, wavelength 1, slab and rib thickness cexC1T, rib width 1,
fundamental device-TE mode. -/
noncomputable def cexC1wg : Waveguide :=
  ⟨1, cexC1T, cexC1T, 1, 0, 1, 2, 1, 0, .TE⟩

theorem cexC1_sqrt511_le : Real.sqrt (5 / 11) ≤ 27 / 40 := by
  rw [show (27 / 40 : ℝ) = Real.sqrt ((27 / 40) ^ 2) by
    rw [Real.sqrt_sq (by norm_num)]]
  exact Real.sqrt_le_sqrt (by norm_num)

theorem cexC1_arctan511_le : Real.arctan (Real.sqrt (5 / 11)) ≤ 27 / 40 :=
  (arctan_le_self_of_nonneg (Real.sqrt_nonneg _)).trans cexC1_sqrt511_le

theorem cexC1_arctan511_ge : Real.sqrt 5 / 4 ≤ Real.arctan (Real.sqrt (5 / 11)) := by
  have h := div_sqrt_le_arctan (Real.sqrt_nonneg (5 / 11 : ℝ))
  have h2 : Real.sqrt (5 / 11 : ℝ) ^ 2 = 5 / 11 := Real.sq_sqrt (by norm_num)
  rw [h2] at h
  have h3 : Real.sqrt (5 / 11) / Real.sqrt (1 + 5 / 11) = Real.sqrt 5 / 4 := by
    rw [show (1 + 5 / 11 : ℝ) = 16 / 11 by norm_num,
      ← Real.sqrt_div (by norm_num : (0 : ℝ) ≤ 5 / 11) (16 / 11),
      show (5 / 11 : ℝ) / (16 / 11) = 5 / 16 by norm_num,
      Real.sqrt_div (by norm_num : (0 : ℝ) ≤ 5) 16,
      show Real.sqrt (16 : ℝ) = 4 by
        rw [show (16 : ℝ) = 4 ^ 2 by norm_num, Real.sqrt_sq (by norm_num)]]
  rwa [h3] at h

theorem cexC1_T_pos : 0 < cexC1T := by
  rw [cexC1T]
  apply div_pos
  · have := cexC1_arctan511_le
    have := Real.pi_gt_three
    linarith
  · exact mul_pos Real.pi_pos (Real.sqrt_pos.2 (by norm_num))

theorem cexC1_T_ne : cexC1T ≠ 0 := ne_of_gt cexC1_T_pos

theorem cexC1_sqrt16 : Real.sqrt (16 : ℝ) = 4 := by
  rw [show (16 : ℝ) = 4 ^ 2 by norm_num, Real.sqrt_sq (by norm_num)]

theorem cexC1_sqrt4 : Real.sqrt (4 : ℝ) = 2 := by
  rw [show (4 : ℝ) = 2 ^ 2 by norm_num, Real.sqrt_sq (by norm_num)]

theorem cexC1_Tterm_74 :
    2 * Real.pi * (1 / 1) * Real.sqrt (15 / 16) * cexC1T =
      Real.pi - 2 * Real.arctan (Real.sqrt (5 / 11)) := by
  have h1 : Real.sqrt (15 / 16 : ℝ) = Real.sqrt 15 / 4 := by
    rw [Real.sqrt_div (by norm_num : (0 : ℝ) ≤ 15) 16, cexC1_sqrt16]
  have h2 : Real.sqrt (15 : ℝ) ≠ 0 := ne_of_gt (Real.sqrt_pos.2 (by norm_num))
  rw [h1, cexC1T]
  field_simp
  ring

theorem cexC1_Tterm_32 :
    2 * Real.pi * (1 / 1) * Real.sqrt (7 / 4) * cexC1T =
      Real.sqrt (28 / 15) *
        (Real.pi - 2 * Real.arctan (Real.sqrt (5 / 11))) := by
  have h1 : Real.sqrt (7 / 4 : ℝ) = Real.sqrt 7 / 2 := by
    rw [Real.sqrt_div (by norm_num : (0 : ℝ) ≤ 7) 4, cexC1_sqrt4]
  have h2 : Real.sqrt (28 / 15 : ℝ) * Real.sqrt 15 = 2 * Real.sqrt 7 := by
    rw [← Real.sqrt_mul (by norm_num : (0 : ℝ) ≤ 28 / 15) 15,
      show (28 / 15 : ℝ) * 15 = 28 by norm_num,
      show (28 : ℝ) = 4 * 7 by norm_num,
      Real.sqrt_mul (by norm_num : (0 : ℝ) ≤ 4) 7, cexC1_sqrt4]
  have h3 : Real.sqrt (15 : ℝ) ≠ 0 := ne_of_gt (Real.sqrt_pos.2 (by norm_num))
  have hπ : Real.pi ≠ 0 := ne_of_gt Real.pi_pos
  rw [h1, cexC1T]
  generalize hu : Real.sqrt (28 / 15 : ℝ) = u at h2 ⊢
  generalize hs : Real.sqrt (15 : ℝ) = s at h2 h3 ⊢
  generalize ht : Real.sqrt (7 : ℝ) = t at h2 ⊢
  have ht2 : t = u * s / 2 := by linarith
  rw [ht2]
  field_simp
  ring

theorem cexC1_ratio_mid :
    2 * Real.pi * (1 / 1) * Real.sqrt (7 / 4) /
      (2 * Real.pi * (1 / 1) * Real.sqrt (5 / 4)) = Real.sqrt (7 / 5) := by
  have hne : (2 : ℝ) * Real.pi * (1 / 1) ≠ 0 := by positivity
  rw [mul_div_mul_left _ _ hne,
    ← Real.sqrt_div (by norm_num : (0 : ℝ) ≤ 7 / 4) (5 / 4),
    show (7 / 4 : ℝ) / (5 / 4) = 7 / 5 by norm_num]

theorem cexC1_ratio_74 :
    2 * Real.pi * (1 / 1) * Real.sqrt (15 / 16) /
      (2 * Real.pi * (1 / 1) * Real.sqrt (33 / 16)) = Real.sqrt (5 / 11) := by
  have hne : (2 : ℝ) * Real.pi * (1 / 1) ≠ 0 := by positivity
  rw [mul_div_mul_left _ _ hne,
    ← Real.sqrt_div (by norm_num : (0 : ℝ) ≤ 15 / 16) (33 / 16),
    show (15 / 16 : ℝ) / (33 / 16) = 5 / 11 by norm_num]

theorem cexC1_ratio_74_TM :
    1 ^ 2 * (2 * Real.pi * (1 / 1) * Real.sqrt (15 / 16)) /
      (2 ^ 2 * (2 * Real.pi * (1 / 1) * Real.sqrt (33 / 16))) =
      Real.sqrt (5 / 11) / 4 := by
  have h : 1 ^ 2 * (2 * Real.pi * (1 / 1) * Real.sqrt (15 / 16)) /
      (2 ^ 2 * (2 * Real.pi * (1 / 1) * Real.sqrt (33 / 16))) =
      (2 * Real.pi * (1 / 1) * Real.sqrt (15 / 16) /
        (2 * Real.pi * (1 / 1) * Real.sqrt (33 / 16))) / 4 := by
    ring
  rw [h, cexC1_ratio_74]

theorem cexC1_fTE_mid :
    eim.slab_equation .TE 1 2 1 1 cexC1T 0 ((1 + 2) / 2) =
      some (Real.pi - 2 * Real.arctan (Real.sqrt (7 / 5)) -
        Real.sqrt (28 / 15) *
          (Real.pi - 2 * Real.arctan (Real.sqrt (5 / 11)))) := by
  rw [show ((1 : ℝ) + 2) / 2 = 3 / 2 by norm_num]
  have d1 : eim.dsqrt (((3 : ℝ) / 2) ^ 2 - 1 ^ 2) = some (Real.sqrt (5 / 4)) := by
    rw [show (((3 : ℝ) / 2) ^ 2 - 1 ^ 2) = 5 / 4 by norm_num]
    exact eim.dsqrt_nonneg (by norm_num)
  have d2 : eim.dsqrt ((2 : ℝ) ^ 2 - (3 / 2) ^ 2) = some (Real.sqrt (7 / 4)) := by
    rw [show ((2 : ℝ) ^ 2 - (3 / 2) ^ 2) = 7 / 4 by norm_num]
    exact eim.dsqrt_nonneg (by norm_num)
  have hx : (0 : ℝ) < 2 * Real.pi * (1 / 1) * Real.sqrt (5 / 4) := by
    have := Real.sqrt_pos.2 (show (0 : ℝ) < 5 / 4 by norm_num)
    positivity
  simp only [eim.slab_equation, d1, d2, opt.omul_some_some,
    eim.oatan2_some_some, eim.oneg_some, eim.osub_some_some,
    eim.oadd_some_some, eim_pi_def]
  rw [eim.atan2_pos_branch hx, cexC1_ratio_mid, cexC1_Tterm_32]
  push_cast
  ring_nf

theorem cexC1_fTE_74 :
    eim.slab_equation .TE 1 2 1 1 cexC1T 0 (((1 + 2) / 2 + 2) / 2) =
      some 0 := by
  rw [show (((1 : ℝ) + 2) / 2 + 2) / 2 = 7 / 4 by norm_num]
  have d1 : eim.dsqrt (((7 : ℝ) / 4) ^ 2 - 1 ^ 2) =
      some (Real.sqrt (33 / 16)) := by
    rw [show (((7 : ℝ) / 4) ^ 2 - 1 ^ 2) = 33 / 16 by norm_num]
    exact eim.dsqrt_nonneg (by norm_num)
  have d2 : eim.dsqrt ((2 : ℝ) ^ 2 - (7 / 4) ^ 2) =
      some (Real.sqrt (15 / 16)) := by
    rw [show ((2 : ℝ) ^ 2 - (7 / 4) ^ 2) = 15 / 16 by norm_num]
    exact eim.dsqrt_nonneg (by norm_num)
  have hx : (0 : ℝ) < 2 * Real.pi * (1 / 1) * Real.sqrt (33 / 16) := by
    have := Real.sqrt_pos.2 (show (0 : ℝ) < 33 / 16 by norm_num)
    positivity
  simp only [eim.slab_equation, d1, d2, opt.omul_some_some,
    eim.oatan2_some_some, eim.oneg_some, eim.osub_some_some,
    eim.oadd_some_some, eim_pi_def]
  rw [eim.atan2_pos_branch hx, cexC1_ratio_74, cexC1_Tterm_74]
  push_cast
  ring_nf

theorem cexC1_fTM_74 :
    eim.slab_equation .TM 1 2 1 1 cexC1T 0 (7 / 4) =
      some (2 * Real.arctan (Real.sqrt (5 / 11)) -
        2 * Real.arctan (Real.sqrt (5 / 11) / 4)) := by
  have d1 : eim.dsqrt (((7 : ℝ) / 4) ^ 2 - 1 ^ 2) =
      some (Real.sqrt (33 / 16)) := by
    rw [show (((7 : ℝ) / 4) ^ 2 - 1 ^ 2) = 33 / 16 by norm_num]
    exact eim.dsqrt_nonneg (by norm_num)
  have d2 : eim.dsqrt ((2 : ℝ) ^ 2 - (7 / 4) ^ 2) =
      some (Real.sqrt (15 / 16)) := by
    rw [show ((2 : ℝ) ^ 2 - (7 / 4) ^ 2) = 15 / 16 by norm_num]
    exact eim.dsqrt_nonneg (by norm_num)
  have hx : (0 : ℝ) < 2 ^ 2 * (2 * Real.pi * (1 / 1) * Real.sqrt (33 / 16)) := by
    have := Real.sqrt_pos.2 (show (0 : ℝ) < 33 / 16 by norm_num)
    positivity
  simp only [eim.slab_equation, d1, d2, opt.omul_some_some,
    eim.oatan2_some_some, eim.oneg_some, eim.osub_some_some,
    eim.oadd_some_some, eim_pi_def]
  rw [eim.atan2_pos_branch hx, cexC1_ratio_74_TM, cexC1_Tterm_74]
  push_cast
  ring_nf

theorem cexC1_fTE_mid_neg :
    Real.pi - 2 * Real.arctan (Real.sqrt (7 / 5)) -
      Real.sqrt (28 / 15) * (Real.pi - 2 * Real.arctan (Real.sqrt (5 / 11))) <
      -(1 / 10000) := by
  have hq : Real.pi / 4 ≤ Real.arctan (Real.sqrt (7 / 5)) := by
    rw [← Real.arctan_one]
    exact Real.arctan_strictMono.monotone ((Real.le_sqrt' one_pos).2 (by norm_num))
  have hs : (27 / 20 : ℝ) ≤ Real.sqrt (28 / 15) :=
    (Real.le_sqrt' (by norm_num)).2 (by norm_num)
  have hA := cexC1_arctan511_le
  have hπl := Real.pi_gt_d2
  have hπu := Real.pi_lt_d2
  have hfac : (0 : ℝ) ≤ Real.pi - 2 * Real.arctan (Real.sqrt (5 / 11)) := by
    norm_num at hπl
    linarith
  have key : (27 / 20 : ℝ) *
      (Real.pi - 2 * Real.arctan (Real.sqrt (5 / 11))) ≤
      Real.sqrt (28 / 15) *
        (Real.pi - 2 * Real.arctan (Real.sqrt (5 / 11))) :=
    mul_le_mul_of_nonneg_right hs hfac
  norm_num at hπl hπu
  linarith

theorem cexC1_fTM_74_large :
    1 / 10000 ≤ |2 * Real.arctan (Real.sqrt (5 / 11)) -
      2 * Real.arctan (Real.sqrt (5 / 11) / 4)| := by
  have h1 := cexC1_arctan511_ge
  have h2 : Real.arctan (Real.sqrt (5 / 11) / 4) ≤ 27 / 160 := by
    have := arctan_le_self_of_nonneg
      (by positivity : (0 : ℝ) ≤ Real.sqrt (5 / 11) / 4)
    have := cexC1_sqrt511_le
    linarith
  have h5 : (11 / 5 : ℝ) ≤ Real.sqrt 5 :=
    (Real.le_sqrt' (by norm_num)).2 (by norm_num)
  have hw : (1 / 10000 : ℝ) ≤ 2 * Real.arctan (Real.sqrt (5 / 11)) -
      2 * Real.arctan (Real.sqrt (5 / 11) / 4) := by
    linarith
  exact hw.trans (le_abs_self _)

theorem cexC1_fTE_bot_nonpos :
    ((0 : ℤ) : ℝ) * Real.pi -
      2 * Real.pi * (1 / 1) * Real.sqrt ((2 : ℝ) ^ 2 - 1 ^ 2) * cexC1T ≤ 0 := by
  push_cast
  have h1 : (0 : ℝ) ≤ 2 * Real.pi * (1 / 1) *
      Real.sqrt ((2 : ℝ) ^ 2 - 1 ^ 2) * cexC1T := by
    have := cexC1_T_pos
    positivity
  linarith

theorem cexC1_TEbis :
    opt.bisection (fun neff => eim.slab_equation .TE 1 2 1 1 cexC1T 0 neff)
      1 2 (1 / 10000) 100 = ⟨7 / 4, ⟨.CONVERGED, 1, some 0⟩⟩ := by
  have hbot := eim.slab_equation_symmetric_bottom .TE 1 2 1 cexC1T 0
    (by norm_num) (by norm_num) (by norm_num)
  have htop := eim.slab_equation_top .TE 1 2 1 1 cexC1T 0 (by norm_num)
    (by norm_num) (by norm_num) (by norm_num) (by norm_num)
  have hmid := cexC1_fTE_mid
  have h74 := cexC1_fTE_74
  have hv0 := cexC1_fTE_mid_neg
  have hvb := cexC1_fTE_bot_nonpos
  rw [opt.bisection_to_loop _ _ (by
    simp only [hbot, htop, opt.omul_some_some]
    refine fun hcon => absurd hcon ?_
    simp only [opt.olt_some_some, not_lt]
    have hπ := Real.pi_pos
    push_cast at hvb ⊢
    nlinarith [hvb, hπ])]
  rw [show (100 : ℕ) = 99 + 1 from rfl]
  rw [opt.bisectLoop_right 99
    (by
      constructor
      · norm_num
      · simp only [hmid, opt.oabs_some, opt.olt_some_some]
        rw [abs_of_neg (by linarith [hv0] : Real.pi -
          2 * Real.arctan (Real.sqrt (7 / 5)) - Real.sqrt (28 / 15) *
          (Real.pi - 2 * Real.arctan (Real.sqrt (5 / 11))) < 0)]
        linarith [hv0])
    (by
      simp only [hmid, opt.oabs_some, opt.olt_some_some, not_lt]
      rw [abs_of_neg (by linarith [hv0] : Real.pi -
        2 * Real.arctan (Real.sqrt (7 / 5)) - Real.sqrt (28 / 15) *
        (Real.pi - 2 * Real.arctan (Real.sqrt (5 / 11))) < 0)]
      linarith [hv0])
    (by
      simp only [hbot, hmid, opt.omul_some_some, opt.olt_some_some, not_lt]
      push_cast
      push_cast at hvb
      nlinarith [hvb, hv0])]
  rw [show (99 : ℕ) = 98 + 1 from rfl]
  rw [opt.bisectLoop_early 98
    (by
      constructor
      · norm_num
      · simp only [hmid, opt.oabs_some, opt.olt_some_some]
        rw [abs_of_neg (by linarith [hv0] : Real.pi -
          2 * Real.arctan (Real.sqrt (7 / 5)) - Real.sqrt (28 / 15) *
          (Real.pi - 2 * Real.arctan (Real.sqrt (5 / 11))) < 0)]
        linarith [hv0])
    (by
      simp only [h74, opt.oabs_some, opt.olt_some_some]
      norm_num)]
  dsimp only
  rw [h74]
  norm_num

/-- The midpoint-avoidance invariant for the C1 counterexample: starting
from a bracket state whose only sub-brackets with 7/4 strictly inside are
(1, 2) and (3/2, 2), and for a residual that is not within tolerance of
zero at 7/4, the bisection loop can neither return 7/4 early nor leave a
fall-through state whose midpoint 7/4 would be reported CONVERGED. -/
theorem cexC1_bisectLoop_avoid (f : ℝ → Option ℝ)
    (hf : ¬ opt.olt (opt.oabs (f (7 / 4))) (some (1 / 10000))) :
    ∀ (fuel : ℕ) (a b : ℝ) (fa fb : Option ℝ) (mid : ℝ) (fmid : Option ℝ)
      (iter : ℕ), a < b →
      (7 / 4 ∈ Set.Ioo a b → (a = 1 ∧ b = 2) ∨ (a = 3 / 2 ∧ b = 2)) →
      (∀ r, opt.bisectLoop f (1 / 10000) a b fa fb mid fmid iter fuel =
          .early r → r.root ≠ 7 / 4) ∧
      (∀ a2 b2 fa2 fb2 mid2 fmid2 iter2,
        opt.bisectLoop f (1 / 10000) a b fa fb mid fmid iter fuel =
          .done a2 b2 fa2 fb2 mid2 fmid2 iter2 →
        (a2 + b2) / 2 = 7 / 4 →
        (opt.bisectFinish f (1 / 10000) a2 b2 iter2).s.status = .DIVERGED) := by
  intro fuel
  induction fuel with
  | zero =>
    intro a b fa fb mid fmid iter hab hP
    constructor
    · intro r hr
      rw [opt.bisectLoop_zero] at hr
      exact nomatch hr
    intro a2 b2 fa2 fb2 mid2 fmid2 iter2 hdone hmid74
    rw [opt.bisectLoop_zero] at hdone
    cases hdone
    have hIoo : (7 : ℝ) / 4 ∈ Set.Ioo a b := by
      rw [← hmid74]
      exact ⟨left_lt_add_div_two.2 hab, add_div_two_lt_right.2 hab⟩
    rcases hP hIoo with ⟨ha, hb⟩ | ⟨ha, hb⟩
    · rw [ha, hb] at hmid74
      norm_num at hmid74
    · rw [ha, hb]
      rw [opt.bisectFinish_eval]
      norm_num
  | succ n ih =>
    intro a b fa fb mid fmid iter hab hP
    have hmidl : a < (a + b) / 2 := left_lt_add_div_two.2 hab
    have hmidr : (a + b) / 2 < b := add_div_two_lt_right.2 hab
    have hPleft : (7 : ℝ) / 4 ∈ Set.Ioo a ((a + b) / 2) →
        (a = 1 ∧ (a + b) / 2 = 2) ∨ (a = 3 / 2 ∧ (a + b) / 2 = 2) := by
      intro hIoo
      have hIoo2 : (7 : ℝ) / 4 ∈ Set.Ioo a b :=
        ⟨hIoo.1, hIoo.2.trans hmidr⟩
      rcases hP hIoo2 with ⟨ha, hb⟩ | ⟨ha, hb⟩
      · rw [ha, hb] at hIoo
        norm_num at hIoo
      · rw [ha, hb] at hIoo
        norm_num at hIoo
    have hPright : (7 : ℝ) / 4 ∈ Set.Ioo ((a + b) / 2) b →
        ((a + b) / 2 = 1 ∧ b = 2) ∨ ((a + b) / 2 = 3 / 2 ∧ b = 2) := by
      intro hIoo
      have hIoo2 : (7 : ℝ) / 4 ∈ Set.Ioo a b :=
        ⟨hmidl.trans hIoo.1, hIoo.2⟩
      rcases hP hIoo2 with ⟨ha, hb⟩ | ⟨ha, hb⟩
      · rw [ha, hb] at hIoo ⊢
        norm_num at hIoo ⊢
      · rw [ha, hb] at hIoo
        norm_num at hIoo
    by_cases hg : (1 : ℝ) / 10000 < mid ∧
        opt.olt (some (1 / 10000)) (opt.oabs fmid)
    · by_cases hc : opt.olt (opt.oabs (f ((a + b) / 2))) (some (1 / 10000))
      · rw [opt.bisectLoop_early n hg hc]
        constructor
        · intro r hr
          cases hr
          intro hroot
          have hr2 : (a + b) / 2 = 7 / 4 := hroot
          rw [hr2] at hc
          exact hf hc
        · intro a2 b2 fa2 fb2 mid2 fmid2 iter2 hdone
          exact nomatch hdone
      · by_cases hs : opt.olt (opt.omul fa (f ((a + b) / 2))) (some 0)
        · rw [opt.bisectLoop_left n hg hc hs]
          exact ih a ((a + b) / 2) fa (f ((a + b) / 2)) ((a + b) / 2)
            (f ((a + b) / 2)) (iter + 1) hmidl hPleft
        · rw [opt.bisectLoop_right n hg hc hs]
          exact ih ((a + b) / 2) b (f ((a + b) / 2)) fb ((a + b) / 2)
            (f ((a + b) / 2)) (iter + 1) hmidr hPright
    · rw [opt.bisectLoop_stop (n + 1) hg]
      constructor
      · intro r hr
        exact nomatch hr
      intro a2 b2 fa2 fb2 mid2 fmid2 iter2 hdone hmid74
      cases hdone
      have hIoo : (7 : ℝ) / 4 ∈ Set.Ioo a b := by
        rw [← hmid74]
        exact ⟨left_lt_add_div_two.2 hab, add_div_two_lt_right.2 hab⟩
      rcases hP hIoo with ⟨ha, hb⟩ | ⟨ha, hb⟩
      · rw [ha, hb] at hmid74
        norm_num at hmid74
      · rw [ha, hb]
        rw [opt.bisectFinish_eval]
        norm_num

namespace opt

/-- If the bisection loop can neither return the value c early nor leave a
fall-through state whose midpoint c would be reported CONVERGED, then a
CONVERGED run of bisection cannot report the root c. -/
theorem bisection_avoid_converged {α : Type} [LinearOrderedField α]
    (f : α → Option α) (a b tol : α) (mi : ℕ) (c : α)
    (hnotinv : ¬ olt (some 0) (omul (f a) (f b)))
    (h : (∀ r, bisectLoop f tol a b (f a) (f b) ((a + b) / 2)
          (f ((a + b) / 2)) 0 mi = .early r → r.root ≠ c) ∧
        (∀ a2 b2 fa2 fb2 mid2 fmid2 iter2,
          bisectLoop f tol a b (f a) (f b) ((a + b) / 2)
            (f ((a + b) / 2)) 0 mi = .done a2 b2 fa2 fb2 mid2 fmid2 iter2 →
          (a2 + b2) / 2 = c →
          (bisectFinish f tol a2 b2 iter2).s.status = .DIVERGED)) :
    (bisection f a b tol mi).s.status = .CONVERGED →
      (bisection f a b tol mi).root ≠ c := by
  rw [bisection_to_loop tol mi hnotinv]
  cases hL : bisectLoop f tol a b (f a) (f b) ((a + b) / 2)
      (f ((a + b) / 2)) 0 mi with
  | early r =>
    intro _ hroot
    exact h.1 r hL hroot
  | done a2 b2 fa2 fb2 mid2 fmid2 iter2 =>
    intro hst hroot
    dsimp only at hst
    have hmid : (a2 + b2) / 2 = c := hroot
    have hdiv := h.2 a2 b2 fa2 fb2 mid2 fmid2 iter2 hL hmid
    rw [hdiv] at hst
    exact StCode.noConfusion hst

end opt

/-- The TE component of the C1 counterexample vertical solve: the TE
bisection converges early at the second midpoint 7/4, so solve_slab
reports exactly 7/4 in its first slot. -/
theorem cexC1_TE_component :
    (eim.solve_slab 1 2 1 1 cexC1T 0).1 = 7 / 4 := by
  rw [eim.solve_slab, min_self, cexC1_TEbis]
  simp

/-- The TM component of the C1 counterexample vertical solve is never 7/4:
the TM residual at 7/4 exceeds the tolerance in magnitude, so a CONVERGED
TM run cannot report 7/4, and a non-CONVERGED run falls back to
min(1,1) = 1. -/
theorem cexC1_TM_component :
    (eim.solve_slab 1 2 1 1 cexC1T 0).2 ≠ 7 / 4 := by
  have hbot := eim.slab_equation_symmetric_bottom .TM 1 2 1 cexC1T 0
    (by norm_num) (by norm_num) (by norm_num)
  have htop := eim.slab_equation_top .TM 1 2 1 1 cexC1T 0 (by norm_num)
    (by norm_num) (by norm_num) (by norm_num) (by norm_num)
  have hvb := cexC1_fTE_bot_nonpos
  have hf : ¬ opt.olt
      (opt.oabs (eim.slab_equation .TM 1 2 1 1 cexC1T 0 (7 / 4)))
      (some (1 / 10000)) := by
    rw [cexC1_fTM_74]
    simp only [opt.oabs_some, opt.olt_some_some, not_lt]
    exact cexC1_fTM_74_large
  have hnotinv : ¬ opt.olt (some (0 : ℝ))
      (opt.omul (eim.slab_equation .TM 1 2 1 1 cexC1T 0 1)
        (eim.slab_equation .TM 1 2 1 1 cexC1T 0 2)) := by
    simp only [hbot, htop, opt.omul_some_some]
    refine fun hcon => absurd hcon ?_
    simp only [opt.olt_some_some, not_lt]
    have hπ := Real.pi_pos
    push_cast at hvb ⊢
    nlinarith [hvb, hπ]
  have havoid := cexC1_bisectLoop_avoid
    (fun neff => eim.slab_equation .TM 1 2 1 1 cexC1T 0 neff) hf 100 1 2
    (eim.slab_equation .TM 1 2 1 1 cexC1T 0 1)
    (eim.slab_equation .TM 1 2 1 1 cexC1T 0 2) (((1 : ℝ) + 2) / 2)
    (eim.slab_equation .TM 1 2 1 1 cexC1T 0 ((1 + 2) / 2)) 0
    (by norm_num) (fun _ => Or.inl ⟨rfl, rfl⟩)
  have hkey := opt.bisection_avoid_converged
    (fun neff => eim.slab_equation .TM 1 2 1 1 cexC1T 0 neff) 1 2 (1 / 10000)
    100 (7 / 4) hnotinv havoid
  rw [eim.solve_slab, min_self]
  dsimp only
  split_ifs with hst
  · exact hkey hst
  · norm_num

noncomputable section

/-- Modelled from the spec: the amended selection behind claim C1 - for a
device-TE solve the lateral solve_slab is fed the TE components (get<0>)
of the vertical solves and the TM component (get<1>) of the lateral
result is returned; for device-TM the TM components feed the lateral
solve and its TE component is returned.  The claim's own sentence has the
roles of the fed components exchanged. -/
def Waveguide.neffSpecSame (wg : Waveguide) : ℝ :=
  let n1 := eim.solve_slab wg.n_box
    (if wg.t_slab ≠ 0 then wg.n_core else wg.n_clad) wg.n_clad
    wg.wavelength wg.t_slab 0
  let n2 := eim.solve_slab wg.n_box wg.n_core wg.n_clad wg.wavelength
    wg.t_rib 0
  let n3 := n1
  let fed := fun p : ℝ × ℝ => match wg.mode with
    | .TE => p.1
    | .TM => p.2
  let lateral := eim.solve_slab (fed n1) (fed n2) (fed n3) wg.wavelength
    wg.w_rib (wg.mode_order : ℤ)
  match wg.mode with
  | .TE => lateral.2
  | .TM => lateral.1

end

/-- Claim C1 (counterexample): on the symmetric strip with n_box = n_clad
= 1, n_core = 2, wavelength 1, rib and slab thickness both cexC1T, rib
width 1, order 0, device mode TE, the code feeds the TE components of the
vertical solves (both 7/4) into the lateral solve and returns the TM slot
of its degenerate result, giving exactly 7/4; the claimed selection -
feeding the TM components and returning the opposite slot - yields the TM
vertical component instead, which is provably not 7/4.  The two
selections disagree on this input. -/
theorem C1_counterexample :
    Waveguide.neff cexC1wg = 7 / 4 ∧
    Waveguide.neffSpecSwap cexC1wg ≠ Waveguide.neff cexC1wg := by
  have hTE := cexC1_TE_component
  have hTM := cexC1_TM_component
  have hne : cexC1T ≠ 0 := cexC1_T_ne
  have hneff : Waveguide.neff cexC1wg = 7 / 4 := by
    rw [Waveguide.neff]
    simp only [cexC1wg, ne_eq, hne, not_false_iff, if_true, reduceIte,
      Nat.cast_zero]
    rw [hTE, eim.solve_slab_degenerate (7 / 4 : ℝ) 1 1 0 (by norm_num)]
  have hswap : Waveguide.neffSpecSwap cexC1wg =
      (eim.solve_slab 1 2 1 1 cexC1T 0).2 := by
    rw [Waveguide.neffSpecSwap]
    simp only [cexC1wg, ne_eq, hne, not_false_iff, if_true, reduceIte,
      Nat.cast_zero]
    rw [eim.solve_slab_degenerate ((eim.solve_slab 1 2 1 1 cexC1T 0).2)
      1 1 0 (by norm_num)]
  refine ⟨hneff, ?_⟩
  rw [hswap, hneff]
  exact hTM

/-- Claim C1 (amended): the composition's actual selection - for device
TE the TE components (get<0>) of the vertical solves feed the lateral
solve and the TM component (get<1>) of its result is returned, mirrored
for device TM - agrees with Waveguide::operator() on every input. -/
theorem C1_amended_selection (wg : Waveguide) :
    Waveguide.neff wg = Waveguide.neffSpecSame wg := by
  rcases wg with ⟨lam, tr, ts, wr, ws, nb, nc, ncl, mo, m⟩
  cases m <;> rfl

/-- Cubic Taylor lower bound for arctan on the nonnegative axis. -/
theorem arctan_taylor_lb {x : ℝ} (hx : 0 ≤ x) :
    x - x ^ 3 / 3 ≤ Real.arctan x := by
  have hmono : Monotone (fun z : ℝ => Real.arctan z - (z - z ^ 3 / 3)) := by
    apply monotone_of_deriv_nonneg
    · intro y
      exact ((Real.hasDerivAt_arctan y).sub ((hasDerivAt_id y).sub
        ((hasDerivAt_pow 3 y).div_const 3))).differentiableAt
    · intro y
      have h0 := (Real.hasDerivAt_arctan y).sub ((hasDerivAt_id y).sub
        ((hasDerivAt_pow 3 y).div_const 3))
      simp only [id_eq] at h0
      have h : HasDerivAt (fun z : ℝ => Real.arctan z - (z - z ^ 3 / 3))
          (1 / (1 + y ^ 2) - (1 - y ^ 2)) y := by
        convert h0 using 1
        push_cast
        norm_num
      rw [h.deriv]
      have h2 : (0 : ℝ) < 1 + y ^ 2 := by positivity
      rw [sub_nonneg, le_div_iff h2]
      nlinarith [sq_nonneg (y ^ 2)]
  have h0 := hmono hx
  simp only [Real.arctan_zero] at h0
  norm_num at h0
  linarith

/-- Quintic Taylor upper bound for arctan on the nonnegative axis. -/
theorem arctan_taylor_ub {x : ℝ} (hx : 0 ≤ x) :
    Real.arctan x ≤ x - x ^ 3 / 3 + x ^ 5 / 5 := by
  have hmono : Monotone (fun z : ℝ => z - z ^ 3 / 3 + z ^ 5 / 5 -
      Real.arctan z) := by
    apply monotone_of_deriv_nonneg
    · intro y
      exact (((hasDerivAt_id y).sub ((hasDerivAt_pow 3 y).div_const 3)).add
        ((hasDerivAt_pow 5 y).div_const 5)).sub
        (Real.hasDerivAt_arctan y) |>.differentiableAt
    · intro y
      have h0 := (((hasDerivAt_id y).sub ((hasDerivAt_pow 3 y).div_const 3)).add
        ((hasDerivAt_pow 5 y).div_const 5)).sub (Real.hasDerivAt_arctan y)
      simp only [id_eq] at h0
      have h : HasDerivAt (fun z : ℝ => z - z ^ 3 / 3 + z ^ 5 / 5 -
          Real.arctan z) (1 - y ^ 2 + y ^ 4 - 1 / (1 + y ^ 2)) y := by
        convert h0 using 1
        push_cast
        norm_num
      rw [h.deriv]
      have h2 : (0 : ℝ) < 1 + y ^ 2 := by positivity
      rw [sub_nonneg, div_le_iff h2]
      nlinarith [sq_nonneg (y ^ 3), sq_nonneg y]
  have h0 := hmono hx
  simp only [Real.arctan_zero] at h0
  norm_num at h0
  linarith

/-- Half-angle reduction for arctan: halving the angle shrinks the
argument through x / (1 + sqrt(1 + x^2)). -/
theorem arctan_half {x : ℝ} (hx : 0 ≤ x) :
    Real.arctan x = 2 * Real.arctan (x / (1 + Real.sqrt (1 + x ^ 2))) := by
  have hs0 : (0 : ℝ) ≤ 1 + x ^ 2 := by positivity
  have hs2 : Real.sqrt (1 + x ^ 2) ^ 2 = 1 + x ^ 2 := Real.sq_sqrt hs0
  have hsn : 0 ≤ Real.sqrt (1 + x ^ 2) := Real.sqrt_nonneg _
  have hxle : x ≤ Real.sqrt (1 + x ^ 2) := by
    nth_rewrite 1 [show x = Real.sqrt (x ^ 2) from (Real.sqrt_sq hx).symm]
    exact Real.sqrt_le_sqrt (by nlinarith)
  have hspos : (0 : ℝ) < 1 + Real.sqrt (1 + x ^ 2) := by
    have h1 : (1 : ℝ) ≤ 1 + x ^ 2 := by nlinarith
    nlinarith [Real.sqrt_nonneg (1 + x ^ 2)]
  have hu0 : 0 ≤ x / (1 + Real.sqrt (1 + x ^ 2)) := div_nonneg hx hspos.le
  have hu1 : x / (1 + Real.sqrt (1 + x ^ 2)) < 1 := by
    rw [div_lt_one hspos]
    linarith
  have hu2 : 1 - (x / (1 + Real.sqrt (1 + x ^ 2))) ^ 2 =
      2 / (1 + Real.sqrt (1 + x ^ 2)) := by
    rw [div_pow, eq_div_iff (ne_of_gt hspos)]
    field_simp
    linear_combination (Real.sqrt (1 + x ^ 2) + 1) * hs2
  have htan : Real.tan (2 * Real.arctan (x / (1 + Real.sqrt (1 + x ^ 2)))) =
      x := by
    rw [Real.tan_two_mul, Real.tan_arctan, hu2]
    have hne : (1 + Real.sqrt (1 + x ^ 2)) ≠ 0 := ne_of_gt hspos
    field_simp
  have hlt : Real.arctan (x / (1 + Real.sqrt (1 + x ^ 2))) < Real.pi / 4 := by
    calc Real.arctan (x / (1 + Real.sqrt (1 + x ^ 2))) < Real.arctan 1 :=
      Real.arctan_strictMono hu1
    _ = Real.pi / 4 := Real.arctan_one
  have hge : 0 ≤ Real.arctan (x / (1 + Real.sqrt (1 + x ^ 2))) :=
    arctan_nonneg_of_nonneg hu0
  nth_rewrite 1 [← htan]
  rw [Real.arctan_tan (by linarith [Real.pi_pos]) (by linarith)]

noncomputable section

/-- One step of the arctan argument-halving map used to evaluate the C9
residuals to certified precision. -/
def cexC9y (x : ℝ) : ℝ := x / (1 + Real.sqrt (1 + x ^ 2))

end

/-- Halving identity for the map cexC9y. -/
theorem cexC9y_half {x : ℝ} (hx : 0 ≤ x) :
    Real.arctan x = 2 * Real.arctan (cexC9y x) := arctan_half hx

/-- Rational interval propagation through one halving step: outward
rounded rational bounds on the input yield rational bounds on the
output of cexC9y. -/
theorem cexC9y_bounds (x lo hi c d lo2 hi2 : ℝ) (hlo : 0 ≤ lo) (h1 : lo ≤ x)
    (h2 : x ≤ hi) (hc : 0 < c) (hc2 : c ^ 2 ≤ 1 + lo ^ 2) (hd0 : 0 ≤ d)
    (hd2 : 1 + hi ^ 2 ≤ d ^ 2) (hlo2 : lo2 ≤ lo / (1 + d))
    (hhi2 : hi / (1 + c) ≤ hi2) : lo2 ≤ cexC9y x ∧ cexC9y x ≤ hi2 := by
  have hx0 : 0 ≤ x := hlo.trans h1
  have hsle : Real.sqrt (1 + x ^ 2) ≤ d := by
    rw [show d = Real.sqrt (d ^ 2) from (Real.sqrt_sq hd0).symm]
    exact Real.sqrt_le_sqrt (by nlinarith)
  have hsge : c ≤ Real.sqrt (1 + x ^ 2) :=
    (Real.le_sqrt' hc).2 (by nlinarith)
  have hden : (0 : ℝ) < 1 + Real.sqrt (1 + x ^ 2) := by
    nlinarith [Real.sqrt_nonneg (1 + x ^ 2)]
  constructor
  · refine hlo2.trans ?_
    rw [cexC9y]
    exact div_le_div hx0 h1 hden (by linarith)
  · refine le_trans ?_ hhi2
    rw [cexC9y]
    exact div_le_div (hlo.trans (h1.trans h2)) h2 (by linarith) (by linarith)

/-- Certified rational bounds for arctan(sqrt(775223/591741)),
obtained by four argument-halving steps and cubic/quintic Taylor bounds. -/
theorem cexC9_atan1 :
    (852712917657 / 1000000000000 : ℝ) ≤ Real.arctan (Real.sqrt (775223 / 591741)) ∧
      Real.arctan (Real.sqrt (775223 / 591741)) ≤ 852714303239 / 1000000000000 := by
  have hu0 : (0 : ℝ) ≤ Real.sqrt (775223 / 591741) := Real.sqrt_nonneg _
  have hul : (11445835343 / 10000000000 : ℝ) ≤ Real.sqrt (775223 / 591741) :=
    (Real.le_sqrt' (by norm_num)).2 (by norm_num)
  have huh : Real.sqrt (775223 / 591741) ≤ 715364709 / 625000000 := by
    rw [show (715364709 / 625000000 : ℝ) =
      Real.sqrt ((715364709 / 625000000) ^ 2) from (Real.sqrt_sq (by norm_num)).symm]
    exact Real.sqrt_le_sqrt (by norm_num)
  have h1 := cexC9y_bounds (Real.sqrt (775223 / 591741))
    (11445835343 / 10000000000) (715364709 / 625000000) (759945963 / 500000000) (7599459631 / 5000000000)
    (90843859 / 200000000) (567774119 / 1250000000)
    (by norm_num) hul huh (by norm_num) (by norm_num)
    (by norm_num) (by norm_num) (by norm_num) (by norm_num)
  have h2 := cexC9y_bounds (cexC9y (Real.sqrt (775223 / 591741)))
    (90843859 / 200000000) (567774119 / 1250000000) (1372904749 / 1250000000) (5491618997 / 5000000000)
    (135292303 / 625000000) (2164676851 / 10000000000)
    (by norm_num) h1.1 h1.2 (by norm_num) (by norm_num)
    (by norm_num) (by norm_num) (by norm_num) (by norm_num)
  have h3 := cexC9y_bounds (cexC9y (cexC9y (Real.sqrt (775223 / 591741))))
    (135292303 / 625000000) (2164676851 / 10000000000) (159868893 / 156250000) (5115804577 / 5000000000)
    (1069947937 / 10000000000) (1069947939 / 10000000000)
    (by norm_num) h2.1 h2.2 (by norm_num) (by norm_num)
    (by norm_num) (by norm_num) (by norm_num) (by norm_num)
  have h4 := cexC9y_bounds (cexC9y (cexC9y (cexC9y (Real.sqrt (775223 / 591741)))))
    (1069947937 / 10000000000) (1069947939 / 10000000000) (5028538271 / 5000000000) (157141821 / 156250000)
    (533451589 / 10000000000) (533451591 / 10000000000)
    (by norm_num) h3.1 h3.2 (by norm_num) (by norm_num)
    (by norm_num) (by norm_num) (by norm_num) (by norm_num)
  have e : Real.arctan (Real.sqrt (775223 / 591741)) =
      16 * Real.arctan (cexC9y (cexC9y (cexC9y (cexC9y (Real.sqrt (775223 / 591741)))))) := by
    rw [cexC9y_half hu0,
      cexC9y_half (le_trans (by norm_num) h1.1),
      cexC9y_half (le_trans (by norm_num) h2.1),
      cexC9y_half (le_trans (by norm_num) h3.1)]
    ring
  have hy40 : (0 : ℝ) ≤ cexC9y (cexC9y (cexC9y (cexC9y (Real.sqrt (775223 / 591741))))) := le_trans (by norm_num) h4.1
  have hlb := arctan_taylor_lb hy40
  have hub := arctan_taylor_ub hy40
  have hp3u : (cexC9y (cexC9y (cexC9y (cexC9y (Real.sqrt (775223 / 591741)))))) ^ 3 ≤ (2371947488907 / 15625000000000000 : ℝ) :=
    le_trans (pow_le_pow_left₀ hy40 h4.2 3) (by norm_num)
  have hp3l : (151804637582623 / 1000000000000000000 : ℝ) ≤ (cexC9y (cexC9y (cexC9y (cexC9y (Real.sqrt (775223 / 591741)))))) ^ 3 :=
    le_trans (by norm_num) (pow_le_pow_left₀ (by norm_num) h4.1 3)
  have hp5u : (cexC9y (cexC9y (cexC9y (cexC9y (Real.sqrt (775223 / 591741)))))) ^ 5 ≤ (215995686383 / 500000000000000000 : ℝ) :=
    le_trans (pow_le_pow_left₀ hy40 h4.2 5) (by norm_num)
  rw [e]
  constructor
  · linarith [hlb, h4.1, hp3u]
  · linarith [hub, h4.2, hp3l, hp5u]

/-- Certified rational bounds for arctan(sqrt(4376115/1091741)),
obtained by four argument-halving steps and cubic/quintic Taylor bounds. -/
theorem cexC9_atan2 :
    (276890534391 / 250000000000 : ℝ) ≤ Real.arctan (Real.sqrt (4376115 / 1091741)) ∧
      Real.arctan (Real.sqrt (4376115 / 1091741)) ≤ 553783633947 / 500000000000 := by
  have hu0 : (0 : ℝ) ≤ Real.sqrt (4376115 / 1091741) := Real.sqrt_nonneg _
  have hul : (4004188819 / 2000000000 : ℝ) ≤ Real.sqrt (4376115 / 1091741) :=
    (Real.le_sqrt' (by norm_num)).2 (by norm_num)
  have huh : Real.sqrt (4376115 / 1091741) ≤ 625654503 / 312500000 := by
    rw [show (625654503 / 312500000 : ℝ) =
      Real.sqrt ((625654503 / 312500000) ^ 2) from (Real.sqrt_sq (by norm_num)).symm]
    exact Real.sqrt_le_sqrt (by norm_num)
  have h1 := cexC9y_bounds (Real.sqrt (4376115 / 1091741))
    (4004188819 / 2000000000) (625654503 / 312500000) (22379414703 / 10000000000) (4475882941 / 2000000000)
    (6183232241 / 10000000000) (3091616121 / 5000000000)
    (by norm_num) hul huh (by norm_num) (by norm_num)
    (by norm_num) (by norm_num) (by norm_num) (by norm_num)
  have h2 := cexC9y_bounds (cexC9y (Real.sqrt (4376115 / 1091741)))
    (6183232241 / 10000000000) (3091616121 / 5000000000) (11757225903 / 10000000000) (2351445181 / 2000000000)
    (2841921239 / 10000000000) (2841921241 / 10000000000)
    (by norm_num) h1.1 h1.2 (by norm_num) (by norm_num)
    (by norm_num) (by norm_num) (by norm_num) (by norm_num)
  have h3 := cexC9y_bounds (cexC9y (cexC9y (Real.sqrt (4376115 / 1091741))))
    (2841921239 / 10000000000) (2841921241 / 10000000000) (10395985587 / 10000000000) (2598996397 / 2500000000)
    (1393372841 / 10000000000) (1393372843 / 10000000000)
    (by norm_num) h2.1 h2.2 (by norm_num) (by norm_num)
    (by norm_num) (by norm_num) (by norm_num) (by norm_num)
  have h4 := cexC9y_bounds (cexC9y (cexC9y (cexC9y (Real.sqrt (4376115 / 1091741)))))
    (1393372841 / 10000000000) (1393372843 / 10000000000) (504830387 / 500000000) (5048303871 / 5000000000)
    (173334333 / 2500000000) (346668667 / 5000000000)
    (by norm_num) h3.1 h3.2 (by norm_num) (by norm_num)
    (by norm_num) (by norm_num) (by norm_num) (by norm_num)
  have e : Real.arctan (Real.sqrt (4376115 / 1091741)) =
      16 * Real.arctan (cexC9y (cexC9y (cexC9y (cexC9y (Real.sqrt (4376115 / 1091741)))))) := by
    rw [cexC9y_half hu0,
      cexC9y_half (le_trans (by norm_num) h1.1),
      cexC9y_half (le_trans (by norm_num) h2.1),
      cexC9y_half (le_trans (by norm_num) h3.1)]
    ring
  have hy40 : (0 : ℝ) ≤ cexC9y (cexC9y (cexC9y (cexC9y (Real.sqrt (4376115 / 1091741))))) := le_trans (by norm_num) h4.1
  have hlb := arctan_taylor_lb hy40
  have hub := arctan_taylor_ub hy40
  have hp3u : (cexC9y (cexC9y (cexC9y (cexC9y (Real.sqrt (4376115 / 1091741)))))) ^ 3 ≤ (83324701641271 / 250000000000000000 : ℝ) :=
    le_trans (pow_le_pow_left₀ hy40 h4.2 3) (by norm_num)
  have hp3l : (333298803680783 / 1000000000000000000 : ℝ) ≤ (cexC9y (cexC9y (cexC9y (cexC9y (Real.sqrt (4376115 / 1091741)))))) ^ 3 :=
    le_trans (by norm_num) (pow_le_pow_left₀ (by norm_num) h4.1 3)
  have hp5u : (cexC9y (cexC9y (cexC9y (cexC9y (Real.sqrt (4376115 / 1091741)))))) ^ 5 ≤ (400555721617 / 250000000000000000 : ℝ) :=
    le_trans (pow_le_pow_left₀ hy40 h4.2 5) (by norm_num)
  rw [e]
  constructor
  · linarith [hlb, h4.1, hp3u]
  · linarith [hub, h4.2, hp3l, hp5u]

/-- Ratio of decay constants at the first midpoint of the C9 bracket. -/
theorem cexC9_ratio_mid :
    2 * Real.pi * (1 / 1) * Real.sqrt (71119733243 / 62500000000) /
      (2 * Real.pi * (1 / 1) * Real.sqrt (54286911081 / 62500000000)) =
      Real.sqrt (775223 / 591741) := by
  have hne : (2 : ℝ) * Real.pi * (1 / 1) ≠ 0 := by positivity
  rw [mul_div_mul_left _ _ hne,
    ← Real.sqrt_div (by norm_num : (0 : ℝ) ≤ 71119733243 / 62500000000)
      (54286911081 / 62500000000),
    show (71119733243 / 62500000000 : ℝ) / (54286911081 / 62500000000) =
      775223 / 591741 by norm_num]

/-- Ratio of decay constants at the second midpoint of the C9 bracket. -/
theorem cexC9_ratio_q :
    2 * Real.pi * (1 / 1) * Real.sqrt (80293833243 / 50000000000) /
      (2 * Real.pi * (1 / 1) * Real.sqrt (100157411081 / 250000000000)) =
      Real.sqrt (4376115 / 1091741) := by
  have hne : (2 : ℝ) * Real.pi * (1 / 1) ≠ 0 := by positivity
  rw [mul_div_mul_left _ _ hne,
    ← Real.sqrt_div (by norm_num : (0 : ℝ) ≤ 80293833243 / 50000000000)
      (100157411081 / 250000000000),
    show (80293833243 / 50000000000 : ℝ) / (100157411081 / 250000000000) =
      4376115 / 1091741 by norm_num]

/-- Value of the order-4 TE residual of the C9 stack at the first
bisection midpoint. -/
theorem cexC9_f4_mid :
    eim.slab_equation .TE 1 (216741 / 125000) 1 1 (10445801 / 5000000) 4
      ((1 + 216741 / 125000) / 2) =
      some (5 * Real.pi - 2 * Real.arctan (Real.sqrt (775223 / 591741)) -
        2 * Real.pi * (1 / 1) * Real.sqrt (71119733243 / 62500000000) *
          (10445801 / 5000000)) := by
  rw [show ((1 : ℝ) + 216741 / 125000) / 2 = 341741 / 250000 by norm_num]
  have d1 : eim.dsqrt ((341741 / 250000 : ℝ) ^ 2 - 1 ^ 2) =
      some (Real.sqrt (54286911081 / 62500000000)) := by
    rw [show (341741 / 250000 : ℝ) ^ 2 - 1 ^ 2 =
      54286911081 / 62500000000 by norm_num]
    exact eim.dsqrt_nonneg (by norm_num)
  have d2 : eim.dsqrt ((216741 / 125000 : ℝ) ^ 2 - (341741 / 250000) ^ 2) =
      some (Real.sqrt (71119733243 / 62500000000)) := by
    rw [show (216741 / 125000 : ℝ) ^ 2 - (341741 / 250000) ^ 2 =
      71119733243 / 62500000000 by norm_num]
    exact eim.dsqrt_nonneg (by norm_num)
  have hx : (0 : ℝ) < 2 * Real.pi * (1 / 1) *
      Real.sqrt (54286911081 / 62500000000) := by
    have := Real.sqrt_pos.2
      (show (0 : ℝ) < 54286911081 / 62500000000 by norm_num)
    positivity
  simp only [eim.slab_equation, d1, d2, opt.omul_some_some,
    eim.oatan2_some_some, eim.oneg_some, eim.osub_some_some,
    eim.oadd_some_some, eim_pi_def]
  rw [eim.atan2_pos_branch hx, cexC9_ratio_mid]
  push_cast
  ring_nf

/-- Value of the order-5 TE residual of the C9 stack at the first
bisection midpoint: one pi above the order-4 value. -/
theorem cexC9_f5_mid :
    eim.slab_equation .TE 1 (216741 / 125000) 1 1 (10445801 / 5000000) 5
      ((1 + 216741 / 125000) / 2) =
      some (6 * Real.pi - 2 * Real.arctan (Real.sqrt (775223 / 591741)) -
        2 * Real.pi * (1 / 1) * Real.sqrt (71119733243 / 62500000000) *
          (10445801 / 5000000)) := by
  rw [show ((1 : ℝ) + 216741 / 125000) / 2 = 341741 / 250000 by norm_num]
  have d1 : eim.dsqrt ((341741 / 250000 : ℝ) ^ 2 - 1 ^ 2) =
      some (Real.sqrt (54286911081 / 62500000000)) := by
    rw [show (341741 / 250000 : ℝ) ^ 2 - 1 ^ 2 =
      54286911081 / 62500000000 by norm_num]
    exact eim.dsqrt_nonneg (by norm_num)
  have d2 : eim.dsqrt ((216741 / 125000 : ℝ) ^ 2 - (341741 / 250000) ^ 2) =
      some (Real.sqrt (71119733243 / 62500000000)) := by
    rw [show (216741 / 125000 : ℝ) ^ 2 - (341741 / 250000) ^ 2 =
      71119733243 / 62500000000 by norm_num]
    exact eim.dsqrt_nonneg (by norm_num)
  have hx : (0 : ℝ) < 2 * Real.pi * (1 / 1) *
      Real.sqrt (54286911081 / 62500000000) := by
    have := Real.sqrt_pos.2
      (show (0 : ℝ) < 54286911081 / 62500000000 by norm_num)
    positivity
  simp only [eim.slab_equation, d1, d2, opt.omul_some_some,
    eim.oatan2_some_some, eim.oneg_some, eim.osub_some_some,
    eim.oadd_some_some, eim_pi_def]
  rw [eim.atan2_pos_branch hx, cexC9_ratio_mid]
  push_cast
  ring_nf

/-- Value of the order-5 TE residual of the C9 stack at the second
bisection midpoint (the midpoint of the left half-bracket). -/
theorem cexC9_f5_q :
    eim.slab_equation .TE 1 (216741 / 125000) 1 1 (10445801 / 5000000) 5
      ((1 + (1 + 216741 / 125000) / 2) / 2) =
      some (6 * Real.pi - 2 * Real.arctan (Real.sqrt (4376115 / 1091741)) -
        2 * Real.pi * (1 / 1) * Real.sqrt (80293833243 / 50000000000) *
          (10445801 / 5000000)) := by
  rw [show ((1 : ℝ) + (1 + 216741 / 125000) / 2) / 2 = 591741 / 500000
    by norm_num]
  have d1 : eim.dsqrt ((591741 / 500000 : ℝ) ^ 2 - 1 ^ 2) =
      some (Real.sqrt (100157411081 / 250000000000)) := by
    rw [show (591741 / 500000 : ℝ) ^ 2 - 1 ^ 2 =
      100157411081 / 250000000000 by norm_num]
    exact eim.dsqrt_nonneg (by norm_num)
  have d2 : eim.dsqrt ((216741 / 125000 : ℝ) ^ 2 - (591741 / 500000) ^ 2) =
      some (Real.sqrt (80293833243 / 50000000000)) := by
    rw [show (216741 / 125000 : ℝ) ^ 2 - (591741 / 500000) ^ 2 =
      80293833243 / 50000000000 by norm_num]
    exact eim.dsqrt_nonneg (by norm_num)
  have hx : (0 : ℝ) < 2 * Real.pi * (1 / 1) *
      Real.sqrt (100157411081 / 250000000000) := by
    have := Real.sqrt_pos.2
      (show (0 : ℝ) < 100157411081 / 250000000000 by norm_num)
    positivity
  simp only [eim.slab_equation, d1, d2, opt.omul_some_some,
    eim.oatan2_some_some, eim.oneg_some, eim.osub_some_some,
    eim.oadd_some_some, eim_pi_def]
  rw [eim.atan2_pos_branch hx, cexC9_ratio_q]
  push_cast
  ring_nf

/-- Rational bounds for the core decay factor at the first C9 midpoint. -/
theorem cexC9_sr1 :
    (5333656653 / 5000000000 : ℝ) ≤ Real.sqrt (71119733243 / 62500000000) ∧
      Real.sqrt (71119733243 / 62500000000) ≤ 10667313307 / 10000000000 := by
  constructor
  · exact (Real.le_sqrt' (by norm_num)).2 (by norm_num)
  · rw [show (10667313307 / 10000000000 : ℝ) =
      Real.sqrt ((10667313307 / 10000000000) ^ 2) from
        (Real.sqrt_sq (by norm_num)).symm]
    exact Real.sqrt_le_sqrt (by norm_num)

/-- Rational bounds for the core decay factor at the second C9 midpoint. -/
theorem cexC9_sr2 :
    (12672318907 / 10000000000 : ℝ) ≤ Real.sqrt (80293833243 / 50000000000) ∧
      Real.sqrt (80293833243 / 50000000000) ≤ 3168079727 / 2500000000 := by
  constructor
  · exact (Real.le_sqrt' (by norm_num)).2 (by norm_num)
  · rw [show (3168079727 / 2500000000 : ℝ) =
      Real.sqrt ((3168079727 / 2500000000) ^ 2) from
        (Real.sqrt_sq (by norm_num)).symm]
    exact Real.sqrt_le_sqrt (by norm_num)

/-- Rational bounds for the core decay factor at the bottom bracket
endpoint of the C9 stack. -/
theorem cexC9_stb :
    (7082560111 / 5000000000 : ℝ) ≤ Real.sqrt (31351661081 / 15625000000) ∧
      Real.sqrt (31351661081 / 15625000000) ≤ 14165120223 / 10000000000 := by
  constructor
  · exact (Real.le_sqrt' (by norm_num)).2 (by norm_num)
  · rw [show (14165120223 / 10000000000 : ℝ) =
      Real.sqrt ((14165120223 / 10000000000) ^ 2) from
        (Real.sqrt_sq (by norm_num)).symm]
    exact Real.sqrt_le_sqrt (by norm_num)

/-- The order-4 residual at the first midpoint is within the default
bisection tolerance of zero. -/
theorem cexC9_v4_small :
    |5 * Real.pi - 2 * Real.arctan (Real.sqrt (775223 / 591741)) -
      2 * Real.pi * (1 / 1) * Real.sqrt (71119733243 / 62500000000) *
        (10445801 / 5000000)| ≤ 1 / 10000 := by
  have hA := cexC9_atan1
  have hg := cexC9_sr1
  have hπl := Real.pi_gt_d6
  have hπu := Real.pi_lt_d6
  have hp1 : (3141592 / 1000000 : ℝ) * (5333656653 / 5000000000) ≤
      Real.pi * Real.sqrt (71119733243 / 62500000000) :=
    mul_le_mul (by linarith [Real.pi_gt_d6] : (3141592 / 1000000 : ℝ) ≤ Real.pi)
      hg.1 (by norm_num) Real.pi_pos.le
  have hp2 : Real.pi * Real.sqrt (71119733243 / 62500000000) ≤
      (3141593 / 1000000 : ℝ) * (10667313307 / 10000000000) :=
    mul_le_mul (by linarith [Real.pi_lt_d6] : Real.pi ≤ 3141593 / 1000000)
      hg.2 (Real.sqrt_nonneg _) (by norm_num)
  rw [abs_le]
  constructor
  · nlinarith [hp1, hp2, hA.1, hA.2, hπl, hπu]
  · nlinarith [hp1, hp2, hA.1, hA.2, hπl, hπu]

/-- The order-5 residual at the second midpoint is strictly within the
default bisection tolerance of zero. -/
theorem cexC9_v5q_small :
    |6 * Real.pi - 2 * Real.arctan (Real.sqrt (4376115 / 1091741)) -
      2 * Real.pi * (1 / 1) * Real.sqrt (80293833243 / 50000000000) *
        (10445801 / 5000000)| < 1 / 10000 := by
  have hA := cexC9_atan2
  have hg := cexC9_sr2
  have hπl := Real.pi_gt_d6
  have hπu := Real.pi_lt_d6
  have hp1 : (3141592 / 1000000 : ℝ) * (12672318907 / 10000000000) ≤
      Real.pi * Real.sqrt (80293833243 / 50000000000) :=
    mul_le_mul (by linarith [Real.pi_gt_d6] : (3141592 / 1000000 : ℝ) ≤ Real.pi)
      hg.1 (by norm_num) Real.pi_pos.le
  have hp2 : Real.pi * Real.sqrt (80293833243 / 50000000000) ≤
      (3141593 / 1000000 : ℝ) * (3168079727 / 2500000000) :=
    mul_le_mul (by linarith [Real.pi_lt_d6] : Real.pi ≤ 3141593 / 1000000)
      hg.2 (Real.sqrt_nonneg _) (by norm_num)
  rw [abs_lt]
  constructor
  · nlinarith [hp1, hp2, hA.1, hA.2, hπl, hπu]
  · nlinarith [hp1, hp2, hA.1, hA.2, hπl, hπu]

/-- The order-5 residual at the first midpoint exceeds the tolerance. -/
theorem cexC9_v5mid_large :
    1 / 10000 < 6 * Real.pi - 2 * Real.arctan (Real.sqrt (775223 / 591741)) -
      2 * Real.pi * (1 / 1) * Real.sqrt (71119733243 / 62500000000) *
        (10445801 / 5000000) := by
  have h := cexC9_v4_small
  rw [abs_le] at h
  have hπl := Real.pi_gt_d6
  linarith [h.1]

/-- The order-5 residual at the bottom bracket endpoint is negative. -/
theorem cexC9_f5bot_neg :
    5 * Real.pi - 2 * Real.pi * (1 / 1) *
        Real.sqrt (31351661081 / 15625000000) * (10445801 / 5000000) < 0 := by
  have hg := cexC9_stb
  have hπu := Real.pi_lt_d6
  have hp1 : (3141592 / 1000000 : ℝ) * (7082560111 / 5000000000) ≤
      Real.pi * Real.sqrt (31351661081 / 15625000000) :=
    mul_le_mul (by linarith [Real.pi_gt_d6] : (3141592 / 1000000 : ℝ) ≤ Real.pi)
      hg.1 (by norm_num) Real.pi_pos.le
  nlinarith [hp1, hπu]

/-- The order-4 bisection run of the C9 stack: the residual at the first
midpoint is already within tolerance, so the loop guard is false at once,
the loop body never runs, and the post-loop check reports DIVERGED
because the bracket is still half a unit wide. -/
theorem cexC9_bis4 :
    opt.bisection (fun neff => eim.slab_equation .TE 1 (216741 / 125000) 1 1
        (10445801 / 5000000) 4 neff) 1 (216741 / 125000) (1 / 10000) 100 =
      ⟨(1 + 216741 / 125000) / 2, ⟨.DIVERGED, 0,
        opt.oabs (eim.slab_equation .TE 1 (216741 / 125000) 1 1
          (10445801 / 5000000) 4 ((1 + 216741 / 125000) / 2))⟩⟩ := by
  have hbot := eim.slab_equation_symmetric_bottom .TE 1 (216741 / 125000) 1
    (10445801 / 5000000) 4 (by norm_num) (by norm_num) (by norm_num)
  have htop := eim.slab_equation_top .TE 1 (216741 / 125000) 1 1
    (10445801 / 5000000) 4 (by norm_num) (by norm_num) (by norm_num)
    (by norm_num) (by norm_num)
  have hbneg : 5 * Real.pi - 2 * Real.pi * (1 / 1) *
      Real.sqrt ((216741 / 125000 : ℝ) ^ 2 - 1 ^ 2) *
        (10445801 / 5000000) < 0 := by
    rw [show (216741 / 125000 : ℝ) ^ 2 - 1 ^ 2 =
      31351661081 / 15625000000 by norm_num]
    exact cexC9_f5bot_neg
  rw [opt.bisection_to_loop _ _ (by
    simp only [hbot, htop, opt.omul_some_some]
    refine fun hcon => absurd hcon ?_
    simp only [opt.olt_some_some, not_lt]
    push_cast
    nlinarith [hbneg, Real.pi_pos])]
  rw [opt.bisectLoop_stop 100 (by
    rw [cexC9_f4_mid]
    simp only [opt.oabs_some, opt.olt_some_some]
    rintro ⟨h1, h2⟩
    exact absurd h2 (not_lt.2 cexC9_v4_small))]
  dsimp only
  rw [opt.bisectFinish_eval]
  norm_num [abs_sub_lt_iff]

/-- The order-5 bisection run of the C9 stack: the first midpoint value
is about pi, the residual changes sign over the left half-bracket, and
the second midpoint is within tolerance, so the run converges early at
the second midpoint after one iteration. -/
theorem cexC9_bis5 :
    opt.bisection (fun neff => eim.slab_equation .TE 1 (216741 / 125000) 1 1
        (10445801 / 5000000) 5 neff) 1 (216741 / 125000) (1 / 10000) 100 =
      ⟨(1 + (1 + 216741 / 125000) / 2) / 2, ⟨.CONVERGED, 1,
        opt.oabs (eim.slab_equation .TE 1 (216741 / 125000) 1 1
          (10445801 / 5000000) 5 ((1 + (1 + 216741 / 125000) / 2) / 2))⟩⟩ := by
  have hbot := eim.slab_equation_symmetric_bottom .TE 1 (216741 / 125000) 1
    (10445801 / 5000000) 5 (by norm_num) (by norm_num) (by norm_num)
  have htop := eim.slab_equation_top .TE 1 (216741 / 125000) 1 1
    (10445801 / 5000000) 5 (by norm_num) (by norm_num) (by norm_num)
    (by norm_num) (by norm_num)
  have hbneg : (5 : ℝ) * Real.pi - 2 * Real.pi * (1 / 1) *
      Real.sqrt ((216741 / 125000 : ℝ) ^ 2 - 1 ^ 2) *
        (10445801 / 5000000) < 0 := by
    rw [show (216741 / 125000 : ℝ) ^ 2 - 1 ^ 2 =
      31351661081 / 15625000000 by norm_num]
    exact cexC9_f5bot_neg
  have hmidpos : (0 : ℝ) < 6 * Real.pi -
      2 * Real.arctan (Real.sqrt (775223 / 591741)) -
      2 * Real.pi * (1 / 1) * Real.sqrt (71119733243 / 62500000000) *
        (10445801 / 5000000) := lt_trans (by norm_num) cexC9_v5mid_large
  have hguard : (1 : ℝ) / 10000 < (1 + 216741 / 125000) / 2 ∧
      opt.olt (some ((1 : ℝ) / 10000))
        (opt.oabs (eim.slab_equation .TE 1 (216741 / 125000) 1 1
          (10445801 / 5000000) 5 ((1 + 216741 / 125000) / 2))) := by
    constructor
    · norm_num
    · rw [cexC9_f5_mid]
      simp only [opt.oabs_some, opt.olt_some_some]
      rw [abs_of_pos hmidpos]
      exact cexC9_v5mid_large
  rw [opt.bisection_to_loop _ _ (by
    simp only [hbot, htop, opt.omul_some_some]
    refine fun hcon => absurd hcon ?_
    simp only [opt.olt_some_some, not_lt]
    push_cast
    nlinarith [hbneg, Real.pi_pos])]
  rw [show (100 : ℕ) = 99 + 1 from rfl]
  rw [opt.bisectLoop_left 99 hguard
    (by
      rw [cexC9_f5_mid]
      simp only [opt.oabs_some, opt.olt_some_some, not_lt]
      rw [abs_of_pos hmidpos]
      exact cexC9_v5mid_large.le)
    (by
      rw [cexC9_f5_mid, hbot]
      simp only [opt.omul_some_some, opt.olt_some_some]
      push_cast
      exact mul_neg_of_neg_of_pos hbneg hmidpos)]
  rw [show (99 : ℕ) = 98 + 1 from rfl]
  rw [opt.bisectLoop_early 98 hguard
    (by
      rw [cexC9_f5_q]
      simp only [opt.oabs_some, opt.olt_some_some]
      exact cexC9_v5q_small)]

/-- The order-4 TE component of the C9 stack falls back to the bracket
bottom min(1,1) = 1. -/
theorem cexC9_comp4 :
    (eim.solve_slab 1 (216741 / 125000) 1 1 (10445801 / 5000000) 4).1 = 1 := by
  rw [eim.solve_slab, min_self, cexC9_bis4]
  simp

/-- The order-5 TE component of the C9 stack is the converged interior
midpoint (3 + n2) / 4. -/
theorem cexC9_comp5 :
    (eim.solve_slab 1 (216741 / 125000) 1 1 (10445801 / 5000000) 5).1 =
      591741 / 500000 := by
  rw [eim.solve_slab, min_self, cexC9_bis5]
  norm_num

/-- Claim C9 (counterexample): the symmetric stack n1 = n3 = 1,
n2 = 1.733928, wavelength 1, W = 2.0891602 has n2 above both bounding
indices, yet the TE component of solve_slab INCREASES from order 4 to
order 5: at order 4 the residual at the first midpoint is already within
the 1e-4 tolerance, so the while guard is false at once and the run is
reported DIVERGED with the fallback min(n1,n3) = 1; at order 5 the run
converges to the interior midpoint 1.183482 > 1.  The claimed
non-increase in the mode order fails. -/
theorem C9_counterexample :
    max (1 : ℝ) 1 < 216741 / 125000 ∧
    (eim.solve_slab 1 (216741 / 125000) 1 1 (10445801 / 5000000) 4).1 = 1 ∧
    (eim.solve_slab 1 (216741 / 125000) 1 1 (10445801 / 5000000) 5).1 =
      591741 / 500000 ∧
    ¬ ((eim.solve_slab 1 (216741 / 125000) 1 1 (10445801 / 5000000) 5).1 ≤
       (eim.solve_slab 1 (216741 / 125000) 1 1 (10445801 / 5000000) 4).1) := by
  refine ⟨by norm_num, cexC9_comp4, cexC9_comp5, ?_⟩
  rw [cexC9_comp4, cexC9_comp5]
  norm_num

namespace eim

/-- The slab residual is NaN whenever the trial index lies below the
bottom index n1 (gamma1 is the square root of a negative number). -/
theorem slab_equation_none_of_below_n1 (mode : Mode) (n1 n2 n3 lambda W : ℝ)
    (j : ℤ) (neff : ℝ) (h : neff ^ 2 - n1 ^ 2 < 0) :
    slab_equation mode n1 n2 n3 lambda W j neff = none := by
  cases mode <;>
    simp [slab_equation, dsqrt_neg h]

/-- The slab residual is NaN whenever the nonnegative trial index lies
below the larger of the two bounding indices. -/
theorem slab_equation_none_of_below_max (mode : Mode) (n1 n2 n3 lambda W : ℝ)
    (j : ℤ) (neff : ℝ) (h0 : 0 ≤ neff) (h : neff < max n1 n3) :
    slab_equation mode n1 n2 n3 lambda W j neff = none := by
  rcases le_total n1 n3 with hc | hc
  · rw [max_eq_right hc] at h
    exact slab_equation_none_of_below_n3 mode n1 n2 n3 lambda W j neff
      (by nlinarith)
  · rw [max_eq_left hc] at h
    exact slab_equation_none_of_below_n1 mode n1 n2 n3 lambda W j neff
      (by nlinarith)

/-- C atan2 of a nonnegative first argument lies in [0, pi]. -/
theorem atan2_nonneg_le_pi (y x : ℝ) (hy : 0 ≤ y) :
    0 ≤ atan2 y x ∧ atan2 y x ≤ Real.pi := by
  rw [atan2]
  simp only [eim_pi_def]
  split_ifs with h1 h2 h3 h4
  · exact ⟨arctan_nonneg_of_nonneg (div_nonneg hy h1.le),
      by linarith [Real.arctan_lt_pi_div_two (y / x), Real.pi_pos]⟩
  · have hxle : y / x ≤ 0 := div_nonpos_of_nonneg_of_nonpos hy h2.le
    have ha1 : Real.arctan (y / x) ≤ 0 := by
      have h0 := Real.arctan_strictMono.monotone hxle
      rwa [Real.arctan_zero] at h0
    exact ⟨by linarith [Real.neg_pi_div_two_lt_arctan (y / x), Real.pi_pos],
      by linarith [Real.pi_pos]⟩
  · exact ⟨by linarith [Real.pi_pos], by linarith [Real.pi_pos]⟩
  · exact absurd h4 (not_lt.2 hy)
  · exact ⟨le_rfl, Real.pi_pos.le⟩

/-- In the real band [max(n1,n3), n2] the slab residual is a genuine
number, and above the saturation threshold order it exceeds the default
bisection tolerance: the two atan2 terms contribute at most 2 pi and the
phase term gamma2 W is largest at the bottom of the bracket. -/
theorem slab_equation_some_large (mode : Mode) (n1 n2 n3 lambda W : ℝ)
    (j : ℤ) (x : ℝ) (h1 : 0 ≤ n1) (h3 : 0 ≤ n3) (hlam : 0 < lambda)
    (hW : 0 ≤ W) (hx1 : max n1 n3 ≤ x) (hx2 : x ≤ n2)
    (hth : 2 * Real.pi * (1 / lambda) *
        Real.sqrt (n2 ^ 2 - min n1 n3 ^ 2) * W + 2 * Real.pi + 1 / 10000 <
        ((j : ℝ) + 1) * Real.pi) :
    ∃ v, slab_equation mode n1 n2 n3 lambda W j x = some v ∧
      1 / 10000 < v := by
  have hxn1 : n1 ≤ x := le_trans (le_max_left n1 n3) hx1
  have hxn3 : n3 ≤ x := le_trans (le_max_right n1 n3) hx1
  have hx0 : 0 ≤ x := le_trans h1 hxn1
  have hmin0 : 0 ≤ min n1 n3 := le_min h1 h3
  have hminx : min n1 n3 ≤ x := le_trans (min_le_left n1 n3) hxn1
  have d1 : dsqrt (x ^ 2 - n1 ^ 2) = some (Real.sqrt (x ^ 2 - n1 ^ 2)) :=
    dsqrt_nonneg (by nlinarith)
  have d2 : dsqrt (n2 ^ 2 - x ^ 2) = some (Real.sqrt (n2 ^ 2 - x ^ 2)) :=
    dsqrt_nonneg (by nlinarith)
  have d3 : dsqrt (x ^ 2 - n3 ^ 2) = some (Real.sqrt (x ^ 2 - n3 ^ 2)) :=
    dsqrt_nonneg (by nlinarith)
  have hmono : Real.sqrt (n2 ^ 2 - x ^ 2) ≤
      Real.sqrt (n2 ^ 2 - min n1 n3 ^ 2) :=
    Real.sqrt_le_sqrt (by nlinarith)
  have hgw : 2 * Real.pi * (1 / lambda) * Real.sqrt (n2 ^ 2 - x ^ 2) * W ≤
      2 * Real.pi * (1 / lambda) *
        Real.sqrt (n2 ^ 2 - min n1 n3 ^ 2) * W :=
    mul_le_mul_of_nonneg_right
      (mul_le_mul_of_nonneg_left hmono (by positivity)) hW
  cases mode
  · simp only [slab_equation, d1, d2, d3, opt.omul_some_some,
      oatan2_some_some, oneg_some, osub_some_some, oadd_some_some,
      eim_pi_def]
    refine ⟨_, rfl, ?_⟩
    have hA1 := atan2_nonneg_le_pi
      (2 * Real.pi * (1 / lambda) * Real.sqrt (n2 ^ 2 - x ^ 2))
      (2 * Real.pi * (1 / lambda) * Real.sqrt (x ^ 2 - n1 ^ 2))
      (by positivity)
    have hA3 := atan2_nonneg_le_pi
      (2 * Real.pi * (1 / lambda) * Real.sqrt (n2 ^ 2 - x ^ 2))
      (2 * Real.pi * (1 / lambda) * Real.sqrt (x ^ 2 - n3 ^ 2))
      (by positivity)
    linarith [hA1.1, hA1.2, hA3.1, hA3.2, hgw, hth]
  · simp only [slab_equation, d1, d2, d3, opt.omul_some_some,
      oatan2_some_some, oneg_some, osub_some_some, oadd_some_some,
      eim_pi_def]
    refine ⟨_, rfl, ?_⟩
    have hA1 := atan2_nonneg_le_pi
      (n1 ^ 2 * (2 * Real.pi * (1 / lambda) * Real.sqrt (n2 ^ 2 - x ^ 2)))
      (n2 ^ 2 * (2 * Real.pi * (1 / lambda) * Real.sqrt (x ^ 2 - n1 ^ 2)))
      (by positivity)
    have hA3 := atan2_nonneg_le_pi
      (n3 ^ 2 * (2 * Real.pi * (1 / lambda) * Real.sqrt (n2 ^ 2 - x ^ 2)))
      (n2 ^ 2 * (2 * Real.pi * (1 / lambda) * Real.sqrt (x ^ 2 - n3 ^ 2)))
      (by positivity)
    linarith [hA1.1, hA1.2, hA3.1, hA3.2, hgw, hth]

end eim

namespace opt

/-- When every residual value on the bracket is either NaN or strictly
above the tolerance and the left endpoint value is NaN or positive, the
bisection loop can never return early, never moves its right endpoint,
and leaves a bracket whose width is the original width divided by a
power of two. -/
theorem bisectLoop_no_sign_change {α : Type} [LinearOrderedField α]
    (f : α → Option α) (a0 b tol : α)
    (HB : ∀ x, a0 ≤ x → x ≤ b →
      (f x = none ∨ ∃ v, f x = some v ∧ tol < v))
    (htol : 0 < tol) :
    ∀ (fuel : ℕ) (a : α) (fa fb : Option α) (mid : α) (fmid : Option α)
      (iter k : ℕ), a0 ≤ a → a < b → b - a = (b - a0) / 2 ^ k →
      (fa = none ∨ ∃ v, fa = some v ∧ 0 < v) →
      (∀ r, bisectLoop f tol a b fa fb mid fmid iter fuel = .early r →
        False) ∧
      (∀ a2 b2 fa2 fb2 mid2 fmid2 iter2,
        bisectLoop f tol a b fa fb mid fmid iter fuel =
          .done a2 b2 fa2 fb2 mid2 fmid2 iter2 →
        b2 = b ∧ a0 ≤ a2 ∧ a2 < b ∧ ∃ k2 : ℕ, b - a2 = (b - a0) / 2 ^ k2) := by
  intro fuel
  induction fuel with
  | zero =>
    intro a fa fb mid fmid iter k ha0 hab hk Hfa
    constructor
    · intro r hr
      rw [bisectLoop_zero] at hr
      exact nomatch hr
    intro a2 b2 fa2 fb2 mid2 fmid2 iter2 hdone
    rw [bisectLoop_zero] at hdone
    cases hdone
    exact ⟨rfl, ha0, hab, ⟨k, hk⟩⟩
  | succ n ih =>
    intro a fa fb mid fmid iter k ha0 hab hk Hfa
    by_cases hg : tol < mid ∧ olt (some tol) (oabs fmid)
    · have hmidl : a < (a + b) / 2 := left_lt_add_div_two.2 hab
      have hmidr : (a + b) / 2 < b := add_div_two_lt_right.2 hab
      have hkstep : b - (a + b) / 2 = (b - a0) / 2 ^ (k + 1) := by
        rw [show b - (a + b) / 2 = (b - a) / 2 by ring, hk, pow_succ]
        ring
      rcases HB ((a + b) / 2) (le_trans ha0 hmidl.le) hmidr.le with
        hfx | ⟨v, hfx, hv⟩
      · have hc : ¬ olt (oabs (f ((a + b) / 2))) (some tol) := by
          rw [hfx]
          simp
        have hs : ¬ olt (omul fa (f ((a + b) / 2))) (some 0) := by
          rw [hfx]
          rcases Hfa with h | ⟨w, hw, _⟩
          · rw [h]
            simp
          · rw [hw]
            simp
        rw [bisectLoop_right n hg hc hs]
        exact ih ((a + b) / 2) (f ((a + b) / 2)) fb ((a + b) / 2)
          (f ((a + b) / 2)) (iter + 1) (k + 1) (le_trans ha0 hmidl.le)
          hmidr hkstep (Or.inl hfx)
      · have hvpos : 0 < v := lt_trans htol hv
        have hc : ¬ olt (oabs (f ((a + b) / 2))) (some tol) := by
          rw [hfx]
          simp only [oabs_some, olt_some_some, not_lt]
          rw [abs_of_pos hvpos]
          exact hv.le
        have hs : ¬ olt (omul fa (f ((a + b) / 2))) (some 0) := by
          rw [hfx]
          rcases Hfa with h | ⟨w, hw, hwpos⟩
          · rw [h]
            simp
          · rw [hw]
            simp only [omul_some_some, olt_some_some, not_lt]
            exact mul_nonneg hwpos.le hvpos.le
        rw [bisectLoop_right n hg hc hs]
        exact ih ((a + b) / 2) (f ((a + b) / 2)) fb ((a + b) / 2)
          (f ((a + b) / 2)) (iter + 1) (k + 1) (le_trans ha0 hmidl.le)
          hmidr hkstep (Or.inr ⟨v, hfx, hvpos⟩)
    · rw [bisectLoop_stop (n + 1) hg]
      constructor
      · intro r hr
        exact nomatch hr
      intro a2 b2 fa2 fb2 mid2 fmid2 iter2 hdone
      cases hdone
      exact ⟨rfl, ha0, hab, ⟨k, hk⟩⟩

end opt

namespace opt

/-- A run whose residual is NaN at the bottom endpoint and NaN-or-large
everywhere on the bracket never reports CONVERGED, provided the bracket
width avoids the exact dyadic multiples of twice the tolerance at which
the post-loop half-width test and the strict proximity test disagree. -/
theorem bisection_no_sign_change_status {α : Type} [LinearOrderedField α]
    (f : α → Option α) (a0 b tol : α) (mi : ℕ)
    (HB : ∀ x, a0 ≤ x → x ≤ b →
      (f x = none ∨ ∃ v, f x = some v ∧ tol < v))
    (htol : 0 < tol) (hab : a0 < b) (hfa : f a0 = none)
    (hnd : ∀ k : ℕ, b - a0 ≠ 2 ^ k * (2 * tol)) :
    (bisection f a0 b tol mi).s.status ≠ .CONVERGED := by
  have hnotinv : ¬ olt (some 0) (omul (f a0) (f b)) := by
    rw [hfa]
    simp
  have hrun := bisectLoop_no_sign_change f a0 b tol HB htol mi a0 (f a0)
    (f b) ((a0 + b) / 2) (f ((a0 + b) / 2)) 0 0 le_rfl hab (by simp)
    (Or.inl hfa)
  rw [bisection_to_loop tol mi hnotinv]
  cases hL : bisectLoop f tol a0 b (f a0) (f b) ((a0 + b) / 2)
      (f ((a0 + b) / 2)) 0 mi with
  | early r => exact (hrun.1 r hL).elim
  | done a2 b2 fa2 fb2 mid2 fmid2 iter2 =>
    obtain ⟨hb2, ha2, hab2, k2, hk2⟩ :=
      hrun.2 a2 b2 fa2 fb2 mid2 fmid2 iter2 hL
    rw [hb2]
    dsimp only
    rw [bisectFinish_eval]
    have habs1 : |(a2 + b) / 2 - b| = (b - a2) / 2 := by
      rw [abs_of_nonpos (by linarith)]
      ring
    have habs2 : |(a2 + b) / 2 - a2| = (b - a2) / 2 := by
      rw [abs_of_nonneg (by linarith)]
      ring
    rcases lt_trichotomy ((b - a2) / 2) tol with hc | hc | hc
    · rw [if_pos (Or.inl (by rw [habs1]; exact hc))]
      exact fun hh => StCode.noConfusion hh
    · exfalso
      apply hnd k2
      have hval : b - a2 = 2 * tol := by linarith
      rw [hval] at hk2
      have h2k : (0 : α) < 2 ^ k2 := by positivity
      rw [eq_div_iff (ne_of_gt h2k)] at hk2
      linarith
    · rw [if_neg (by
          rw [habs1, habs2]
          rintro (hh | hh) <;> linarith),
        if_neg (not_le.2 hc)]
      exact fun hh => StCode.noConfusion hh

end opt

/-- Claim C9 (amended, saturation part): for ANY three-layer stack with
positive bounding indices, n2 above both, positive wavelength and
nonnegative thickness, as soon as the order satisfies
k0*sqrt(n2^2 - min(n1,n3)^2)*W + 2*pi + tol < (j+1)*pi the solver
saturates at the fallback: for a symmetric stack the residual is
positive at both endpoints and bisection reports INVALID_RANGE at once;
for an asymmetric stack the residual is NaN below max(n1,n3) and above
the tolerance elsewhere, so the loop only ever narrows from the left and
ends DIVERGED - in both cases solve_slab returns exactly
(min(n1,n3), min(n1,n3)).  The non-degeneracy hypothesis that the
bracket width avoids the values 2^k/5000 is forced by the code: when a
NaN exit leaves the half-width exactly equal to the tolerance the
strict endpoint-proximity test does not fire and the run is reported
CONVERGED at an interior midpoint instead. -/
theorem C9_amended_saturation (n1 n2 n3 lambda W : ℝ) (j : ℤ)
    (h1 : 0 < n1) (h3 : 0 < n3) (h2 : max n1 n3 < n2) (hlam : 0 < lambda)
    (hW : 0 ≤ W) (htol : 1 / 10000 < min n1 n3)
    (hnd : ∀ k : ℕ, n2 - min n1 n3 ≠ 2 ^ k / 5000)
    (hth : 2 * Real.pi * (1 / lambda) *
        Real.sqrt (n2 ^ 2 - min n1 n3 ^ 2) * W + 2 * Real.pi + 1 / 10000 <
        ((j : ℝ) + 1) * Real.pi) :
    eim.solve_slab n1 n2 n3 lambda W j = (min n1 n3, min n1 n3) := by
  rcases eq_or_ne n1 n3 with heq | hne
  · -- symmetric stack: INVALID_RANGE at once
    subst heq
    rw [min_self] at htol hth ⊢
    rw [max_self] at h2
    have hX : 0 ≤ 2 * Real.pi * (1 / lambda) *
        Real.sqrt (n2 ^ 2 - n1 ^ 2) * W :=
      mul_nonneg (by positivity) hW
    have hjpos : (0 : ℝ) < (j : ℝ) := by
      by_contra hneg
      push_neg at hneg
      have hj1 : ((j : ℝ) + 1) * Real.pi ≤ 1 * Real.pi :=
        mul_le_mul_of_nonneg_right (by linarith) Real.pi_pos.le
      have hπ := Real.pi_pos
      nlinarith [hX]
    have hbis : ∀ mode, opt.bisection
        (fun neff => eim.slab_equation mode n1 n2 n1 lambda W j neff) n1 n2
        (1 / 10000) 100 =
        ⟨n1, ⟨.INVALID_RANGE, 0,
          opt.omin
            (opt.oabs (eim.slab_equation mode n1 n2 n1 lambda W j n1))
            (opt.oabs (eim.slab_equation mode n1 n2 n1 lambda W j n2))⟩⟩ := by
      intro mode
      have hbot := eim.slab_equation_symmetric_bottom mode n1 n2 lambda W j
        h1 h2 hlam
      have htop := eim.slab_equation_top mode n1 n2 n1 lambda W j h1.le h2
        h1.le h2 hlam
      exact opt.bisection_invalid _ _ (by
        simp only [hbot, htop, opt.omul_some_some, opt.olt_some_some]
        have hπ := Real.pi_pos
        have hb : 0 < (j : ℝ) * Real.pi -
            2 * Real.pi * (1 / lambda) * Real.sqrt (n2 ^ 2 - n1 ^ 2) * W := by
          linarith
        have ht : 0 < ((j : ℝ) + 1) * Real.pi :=
          mul_pos (by linarith) Real.pi_pos
        exact mul_pos hb ht)
    rw [eim.solve_slab, min_self, hbis .TE, hbis .TM]
    simp
  · -- asymmetric stack: NaN below max(n1,n3), large elsewhere, the run
    -- never converges and both components fall back
    have hminmax : min n1 n3 < max n1 n3 := min_lt_max.2 hne
    have hmin0 : (0 : ℝ) < min n1 n3 := lt_min h1 h3
    have hab : min n1 n3 < n2 := lt_trans hminmax h2
    have hstat : ∀ mode, (opt.bisection
        (fun neff => eim.slab_equation mode n1 n2 n3 lambda W j neff)
        (min n1 n3) n2 (1 / 10000) 100).s.status ≠
        opt.StCode.CONVERGED := by
      intro mode
      refine opt.bisection_no_sign_change_status _ _ _ _ _ ?_ (by norm_num)
        hab ?_ ?_
      · intro x hx1 hx2
        rcases lt_or_le x (max n1 n3) with hlt | hge
        · exact Or.inl (eim.slab_equation_none_of_below_max mode n1 n2 n3
            lambda W j x (le_trans hmin0.le hx1) hlt)
        · exact Or.inr (eim.slab_equation_some_large mode n1 n2 n3 lambda W
            j x h1.le h3.le hlam hW hge hx2 hth)
      · exact eim.slab_equation_none_of_below_max mode n1 n2 n3 lambda W j _
          hmin0.le hminmax
      · intro k
        rw [show (2 : ℝ) ^ k * (2 * (1 / 10000)) = 2 ^ k / 5000 by ring]
        exact hnd k
    rw [eim.solve_slab]
    rw [if_neg (hstat .TE), if_neg (hstat .TM)]

/-- Claim C9 amended witness: the asymmetric stack n_box = 1,
n_clad = 6/5, n_core = 2 at wavelength 1, thickness 1, order 5 satisfies
the saturation threshold and returns exactly the fallback pair (1, 1). -/
theorem C9_amended_saturation_witness :
    ((0 : ℝ) < 1) ∧ ((0 : ℝ) < 6 / 5) ∧ (max (1 : ℝ) (6 / 5) < 2) ∧
    ((0 : ℝ) < 1) ∧ ((0 : ℝ) ≤ 1) ∧ ((1 : ℝ) / 10000 < min 1 (6 / 5)) ∧
    (2 * Real.pi * (1 / 1) *
        Real.sqrt ((2 : ℝ) ^ 2 - min (1 : ℝ) (6 / 5) ^ 2) * 1 +
        2 * Real.pi + 1 / 10000 < (((5 : ℤ) : ℝ) + 1) * Real.pi) ∧
    eim.solve_slab 1 2 (6 / 5) 1 1 5 = (1, 1) := by
  have hs3 : Real.sqrt ((2 : ℝ) ^ 2 - min (1 : ℝ) (6 / 5) ^ 2) < 7 / 4 := by
    rw [show (2 : ℝ) ^ 2 - min (1 : ℝ) (6 / 5) ^ 2 = 3 by norm_num]
    exact (Real.sqrt_lt' (by norm_num)).2 (by norm_num)
  have hπ := Real.pi_gt_three
  have hth : 2 * Real.pi * (1 / 1) *
      Real.sqrt ((2 : ℝ) ^ 2 - min (1 : ℝ) (6 / 5) ^ 2) * 1 +
      2 * Real.pi + 1 / 10000 < (((5 : ℤ) : ℝ) + 1) * Real.pi := by
    have hps : Real.pi * Real.sqrt ((2 : ℝ) ^ 2 - min (1 : ℝ) (6 / 5) ^ 2) <
        Real.pi * (7 / 4) := mul_lt_mul_of_pos_left hs3 Real.pi_pos
    push_cast
    rw [show 2 * Real.pi * (1 / 1) *
        Real.sqrt ((2 : ℝ) ^ 2 - min (1 : ℝ) (6 / 5) ^ 2) * 1 =
        2 * (Real.pi *
          Real.sqrt ((2 : ℝ) ^ 2 - min (1 : ℝ) (6 / 5) ^ 2)) by ring]
    linarith [hps]
  have hnd : ∀ k : ℕ, (2 : ℝ) - min (1 : ℝ) (6 / 5) ≠ 2 ^ k / 5000 := by
    intro k hcon
    rw [show (2 : ℝ) - min (1 : ℝ) (6 / 5) = 1 by norm_num,
      eq_div_iff (by norm_num : (5000 : ℝ) ≠ 0)] at hcon
    rcases le_or_lt k 12 with hk | hk
    · have h12 : (2 : ℝ) ^ k ≤ 2 ^ 12 :=
        pow_le_pow_right (by norm_num) hk
      norm_num at h12 hcon
      linarith
    · have h13 : (2 : ℝ) ^ 13 ≤ 2 ^ k :=
        pow_le_pow_right (by norm_num) hk
      norm_num at h13 hcon
      linarith
  have hmain := C9_amended_saturation 1 2 (6 / 5) 1 1 5 (by norm_num)
    (by norm_num) (by norm_num) (by norm_num) (by norm_num) (by norm_num)
    hnd hth
  rw [show min (1 : ℝ) (6 / 5) = 1 by norm_num] at hmain
  exact ⟨by norm_num, by norm_num, by norm_num, by norm_num, by norm_num,
    by norm_num, hth, hmain⟩

/-- The exact-tolerance coincidence excluded by the saturation theorem
is real code behaviour: on the stack n_box = 1, n_clad = 20003/20000,
n_core = 5001/5000 the bracket is [1, 1.0002], the residual is NaN at
the bottom endpoint and at the first midpoint 1.0001 (both lie below the
cladding index), the loop is skipped with the half-width exactly equal
to the tolerance 1e-4, the strict endpoint-proximity test does not
fire, and both runs are reported CONVERGED at the midpoint - for every
mode order j - so solve_slab returns the interior midpoint and never the
fallback min(n_box, n_clad) = 1. -/
theorem solve_slab_tol_coincidence (j : ℤ) :
    eim.solve_slab 1 (5001 / 5000) (20003 / 20000) 1 1 j =
      (10001 / 10000, 10001 / 10000) ∧
    min (1 : ℝ) (20003 / 20000) ≠ 10001 / 10000 := by
  have hnone1 : ∀ mode,
      eim.slab_equation mode 1 (5001 / 5000) (20003 / 20000) 1 1 j 1 =
        none := fun mode =>
    eim.slab_equation_none_of_below_n3 mode 1 (5001 / 5000) (20003 / 20000)
      1 1 j 1 (by norm_num)
  have hnonem : ∀ mode,
      eim.slab_equation mode 1 (5001 / 5000) (20003 / 20000) 1 1 j
        ((1 + 5001 / 5000) / 2) = none := fun mode =>
    eim.slab_equation_none_of_below_n3 mode 1 (5001 / 5000) (20003 / 20000)
      1 1 j ((1 + 5001 / 5000) / 2) (by norm_num)
  have hbis : ∀ mode, opt.bisection
      (fun neff => eim.slab_equation mode 1 (5001 / 5000) (20003 / 20000)
        1 1 j neff) 1 (5001 / 5000) (1 / 10000) 100 =
      ⟨(1 + 5001 / 5000) / 2, ⟨.CONVERGED, 0,
        opt.oabs (eim.slab_equation mode 1 (5001 / 5000) (20003 / 20000)
          1 1 j ((1 + 5001 / 5000) / 2))⟩⟩ := by
    intro mode
    rw [opt.bisection_to_loop _ _ (by simp [hnone1 mode])]
    rw [opt.bisectLoop_stop 100 (by simp [hnonem mode])]
    dsimp only
    rw [opt.bisectFinish_eval]
    norm_num [abs_sub_lt_iff, abs_of_pos]
  constructor
  · rw [eim.solve_slab, show min (1 : ℝ) (20003 / 20000) = 1 by norm_num,
      hbis .TE, hbis .TM]
    norm_num
  · norm_num
